import Mathlib

/-!
Verification of the dsync dataset-synchronization engine.

The Python sources (models.py, run.py, transfer.py, query.py) are shallowly
embedded: the three persisted tables become lists of structures, subprocess
calls and filesystem probes become oracles in an `Env` record, and every
stateful operation is an explicit state transformer
`W → Except PyErr α × W` whose error component models a raised Python
exception (mutations made before a raise survive in the threaded world,
matching live ORM objects; the `in_session` wrapper discards uncommitted
changes on an exception, matching models.py's session handling).
-/

set_option maxHeartbeats 1000000

namespace Dsync

/-- Python exception kinds raised by the embedded code, with their message.
`typeError` and `attributeError` model the dynamic-typing failures the
interpreter itself raises (e.g. `DataStore in str`, `None.items()`);
`unboundLocalError` models reading a local variable no branch assigned. -/
inductive PyErr where
  | valueError (msg : String)
  | typeError (msg : String)
  | attributeError (msg : String)
  | unboundLocalError (msg : String)
  deriving DecidableEq, Repr

/-- `DataStore` row (models.py:20): name is the primary key; `type` is the
transport type string ("ssh" or "disc"); `is_archive` marks archive stores. -/
structure DataStore where
  name : String
  link : String
  type : String
  is_archive : Bool
  deriving DecidableEq, Repr

/-- `Dataset` row (models.py:65). `latest_edit` is the derived timestamp the
spec describes; models.py in this snapshot does not declare the column (it is
only read and recomputed through run.py), see `Run.update_latest_edit`. -/
structure Dataset where
  name : String
  description : String
  archived : Bool
  primary_name : Option String
  latest_edit : Option Nat
  deriving DecidableEq, Repr

/-- `ToSync` row (models.py:130): composite key (dataset_name, store_name),
plus the nullable `last_sync` timestamp. -/
structure ToSync where
  dataset_name : String
  store_name : String
  last_sync : Option Nat
  deriving DecidableEq, Repr

/-- The three persisted tables (models.py / the sqlite schema). -/
structure DB where
  stores : List DataStore
  datasets : List Dataset
  tosync : List ToSync
  deriving DecidableEq, Repr

/-- External-world oracle: return codes of subprocess invocations, directory
existence, the clock, the home directory, the dataset the current working
directory resolves to (query.py:14), and the directory-tree scan behind
`latest_edit` (see `Run.update_latest_edit`). -/
structure Env where
  retcode : List String → Int
  isdir : String → Bool
  now : Nat
  home : String
  scan_mtime : String → Nat
  cwd_dataset : Option String

/-- Mutable world threaded through the embedded operations: the database plus
two ghost observation logs (the external commands executed, and the datasets
the bulk sync loop attempted). -/
structure W where
  db : DB
  log : List (List String)
  attempts : List String
  deriving DecidableEq, Repr

def DB.findStore (db : DB) (n : String) : Option DataStore :=
  db.stores.find? (fun s => s.name == n)

def DB.findDataset (db : DB) (n : String) : Option Dataset :=
  db.datasets.find? (fun d => d.name == n)

def DB.findToSync (db : DB) (dn sn : String) : Option ToSync :=
  db.tosync.find? (fun r => r.dataset_name == dn && r.store_name == sn)

/-- `self.last_sync = datetime.now()` on the (dn, sn) row (models.py:188). -/
def DB.setLastSync (db : DB) (dn sn : String) (t : Nat) : DB :=
  { db with
    tosync := db.tosync.map fun r =>
      if r.dataset_name == dn && r.store_name == sn then { r with last_sync := some t } else r }

/-- `dataset.archived = b` (run.py:326, run.py:356). -/
def DB.setArchived (db : DB) (n : String) (b : Bool) : DB :=
  { db with
    datasets := db.datasets.map fun d => if d.name == n then { d with archived := b } else d }

/-- `dataset.primary = p` (run.py:155, run.py:357). -/
def DB.setPrimaryName (db : DB) (n : String) (p : Option String) : DB :=
  { db with
    datasets := db.datasets.map fun d => if d.name == n then { d with primary_name := p } else d }

/-- Store the recomputed `latest_edit` on a dataset. -/
def DB.setLatestEdit (db : DB) (n : String) (t : Option Nat) : DB :=
  { db with
    datasets := db.datasets.map fun d => if d.name == n then { d with latest_edit := t } else d }

/-- `Dataset.local_path` (models.py:83):
`op.join(op.expanduser("~/Work/data"), self.name) + "/"`. -/
def local_path (home n : String) : String :=
  home ++ "/Work/data/" ++ n ++ "/"

/-- The store-side rsync path built in `ToSync.sync` (models.py:174-177).
`none` when the store type is neither "disc" nor "ssh": Python then leaves
the local variable `store_path` unbound. -/
def store_path (stype link n : String) : Option String :=
  if stype == "disc" then some (link ++ "/" ++ n ++ "/")
  else if stype == "ssh" then some (link ++ ":Work/data/" ++ n ++ "/")
  else none

/-- Link-candidate loop of `DataStore.get_connection` (models.py:49-62): ssh
candidates are probed with a batch-mode `ssh ... echo`, disc candidates by
testing the volume's data-archive directory; the first success wins. -/
def get_connection_loop (env : Env) (stype : String) : List String → W → Except PyErr (Option String) × W
  | [], w => (.ok none, w)
  | l :: rest, w =>
    if stype == "ssh" then
      let probe := ["ssh", l, "-oBatchMode=yes", "-q", "echo"]
      let w' : W := { w with log := w.log ++ [probe] }
      if env.retcode probe == 0 then (.ok (some l), w')
      else get_connection_loop env stype rest w'
    else if stype == "disc" then
      let dir := "/Volumes/" ++ l ++ "/data-archive/"
      if env.isdir dir then (.ok (some dir), w)
      else get_connection_loop env stype rest w
    else (.error (.valueError "Unrecognised data store type"), w)

/-- `self.link.split(",")` (models.py:49): split the comma-separated link
list, written with structural recursion over the characters so that concrete
instances evaluate inside the kernel. -/
def split_commas_aux : List Char → List Char → List String
  | [], acc => [String.mk acc.reverse]
  | c :: rest, acc =>
    if c = ',' then String.mk acc.reverse :: split_commas_aux rest []
    else split_commas_aux rest (c :: acc)

def split_commas (s : String) : List String :=
  split_commas_aux s.data []

/-- `DataStore.get_connection` (models.py:41): best available link, as a
string (an ssh host name or a mounted directory path), or None. -/
def DataStore.get_connection (env : Env) (s : DataStore) (w : W) : Except PyErr (Option String) × W :=
  get_connection_loop env s.type (split_commas s.link) w

/-- Shared tail of `ToSync.sync` (models.py:185-189): run the rsync command,
record the return code, and advance `last_sync` to now exactly when it is 0. -/
def run_rsync_row (env : Env) (dn sn : String) (cmd : List String) (w : W) : Except PyErr Int × W :=
  let w1 : W := { w with log := w.log ++ [cmd] }
  let rc := env.retcode cmd
  if rc == 0 then (.ok rc, { w1 with db := w1.db.setLastSync dn sn env.now })
  else (.ok rc, w1)

/-- `ToSync.sync` (models.py:165): one directional rsync between the local
path and the store path of this (dataset, store) row. Pull (store to local)
when the store is the dataset's primary, push (local to store) otherwise. -/
def ToSync.sync (env : Env) (dn sn : String) (link_name : Option String) (w : W) :
    Except PyErr Int × W :=
  match w.db.findDataset dn with
  | none => (.error (.attributeError "'NoneType' object has no attribute 'archived'"), w)
  | some d =>
    if d.archived then (.error (.valueError "Cannot sync an archived dataset."), w)
    else
      match link_name with
      | none =>
        (.error (.valueError ("Trying to sync with an unavailable data store " ++ sn)), w)
      | some link =>
        match w.db.findStore sn with
        | none => (.error (.attributeError "'NoneType' object has no attribute 'type'"), w)
        | some st =>
          if d.primary_name == some sn then
            if st.is_archive then
              (.error (.valueError "Primary data store should not be an archive."), w)
            else
              match store_path st.type link dn with
              | none => (.error (.unboundLocalError "store_path"), w)
              | some sp => run_rsync_row env dn sn ["rsync", "-aP", sp, local_path env.home dn] w
          else
            match store_path st.type link dn with
            | none => (.error (.unboundLocalError "store_path"), w)
            | some sp => run_rsync_row env dn sn ["rsync", "-aP", local_path env.home dn, sp] w

/-- The dynamic value run.py and other callers pass as `Dataset.sync`'s
`store_links` parameter: the dict of store name to link that the method body
expects, or the raw CLI `store` argument — a string or None — that run.py's
`sync` command actually passes (run.py:293). -/
inductive StoreLinksArg where
  | dict (entries : List (String × Option String))
  | str (s : String)
  | pynone
  deriving DecidableEq, Repr

/-- models.py:127: 1 when no non-primary store sync ran, else the minimum of
the absolute return codes. -/
def syncReturn (codes : List Int) : Int :=
  match codes with
  | [] => 1
  | c :: cs => cs.foldl (fun a b => min a (b.natAbs : Int)) (c.natAbs : Int)

/-- Primary-pull prelude of `Dataset.sync` (models.py:102-113): resolve a link
to the primary store (from the dict, else a fresh connection), fail when none
is available, then pull from the primary, discarding its return code. With a
string or None `store_links` the membership test `self.primary not in
store_links` raises TypeError. -/
def sync_primary_prelude (env : Env) (dn p : String) (arg : StoreLinksArg) (w : W) :
    Except PyErr Unit × W :=
  match arg with
  | .str _ =>
    (.error (.typeError "'in <string>' requires string as left operand, not DataStore"), w)
  | .pynone => (.error (.typeError "argument of type 'NoneType' is not iterable"), w)
  | .dict entries =>
    let step : Except PyErr (Option String) × W :=
      match entries.find? (fun e => e.1 == p) with
      | some e => (.ok e.2, w)
      | none =>
        match w.db.findStore p with
        | none => (.error (.attributeError "'NoneType' object has no attribute 'get_connection'"), w)
        | some ps => DataStore.get_connection env ps w
    match step with
    | (.error e, w') => (.error e, w')
    | (.ok none, w') =>
      (.error (.valueError ("Connection to primary store " ++ p ++ " is not available for " ++ dn ++ ".")), w')
    | (.ok (some l), w') =>
      match w'.db.findToSync dn p with
      | none => (.error (.attributeError "'NoneType' object has no attribute 'sync'"), w')
      | some _ =>
        match ToSync.sync env dn p (some l) w' with
        | (.error e, w2) => (.error e, w2)
        | (.ok _, w2) => (.ok (), w2)

/-- Store loop of `Dataset.sync` (models.py:115-126): skip the primary and
unavailable links, look the ToSync row up, create a missing row only for an
archive store, sync each remaining pair and collect the return codes. -/
def sync_links_loop (env : Env) (dn : String) (pn : Option String) :
    List (String × Option String) → List Int → W → Except PyErr (List Int) × W
  | [], codes, w => (.ok codes, w)
  | (sn, link) :: rest, codes, w =>
    if pn == some sn || link == none then sync_links_loop env dn pn rest codes w
    else
      let go : W → Except PyErr (List Int) × W := fun w1 =>
        match ToSync.sync env dn sn link w1 with
        | (.error e, w2) => (.error e, w2)
        | (.ok rc, w2) => sync_links_loop env dn pn rest (codes ++ [rc]) w2
      match w.db.findToSync dn sn with
      | some _ => go w
      | none =>
        match w.db.findStore sn with
        | none => (.error (.attributeError "'NoneType' object has no attribute 'is_archive'"), w)
        | some st =>
          if st.is_archive then
            go { w with db := { w.db with tosync := w.db.tosync ++ [⟨dn, sn, none⟩] } }
          else sync_links_loop env dn pn rest codes w

/-- `Dataset.sync` (models.py:100): pull from the primary when there is one,
then push to every other available store link. run.py's `sync` command passes
the raw `store` CLI argument (a string or None) as `store_links`, on which
the body's dict operations raise (`.str` / `.pynone` cases). -/
def Dataset.sync (env : Env) (dn : String) (arg : StoreLinksArg) (w : W) :
    Except PyErr Int × W :=
  match w.db.findDataset dn with
  | none => (.error (.attributeError "'NoneType' object has no attribute 'primary'"), w)
  | some d =>
    let pre : Except PyErr Unit × W :=
      match d.primary_name with
      | some p => sync_primary_prelude env dn p arg w
      | none => (.ok (), w)
    match pre with
    | (.error e, w') => (.error e, w')
    | (.ok _, w') =>
      match arg with
      | .str _ => (.error (.attributeError "'str' object has no attribute 'items'"), w')
      | .pynone => (.error (.attributeError "'NoneType' object has no attribute 'items'"), w')
      | .dict entries =>
        match sync_links_loop env dn d.primary_name entries [] w' with
        | (.error e, w2) => (.error e, w2)
        | (.ok codes, w2) => (.ok (syncReturn codes), w2)

namespace Transfer

/-- Memoization state of a `TransferProtocol` instance (transfer.py:32):
`setup_suceeded` is the `_setup_suceeded` tri-state (None until the first
attempt, then the memoized boolean; the source's spelling is kept), and
`attempts` is a ghost count of real connection attempts performed. -/
structure TransferState where
  setup_suceeded : Option Bool
  attempts : Nat
  deriving DecidableEq, Repr

/-- A transport instance that has never attempted to connect (construction in
`get_transfer_protocol` does not connect, transfer.py:21-26). -/
def freshTransfer : TransferState :=
  { setup_suceeded := none, attempts := 0 }

/-- `TransferProtocol.setup_connection` (transfer.py:39): on the first call
perform the real connection attempt (its outcome is the `attempt` parameter,
standing for `self._setup_connection()`) and memoize it; afterwards return
the memoized boolean without another attempt. -/
def setup_connection (attempt : Bool) (ts : TransferState) : Bool × TransferState :=
  match ts.setup_suceeded with
  | none => (attempt, { setup_suceeded := some attempt, attempts := ts.attempts + 1 })
  | some b => (b, ts)

/-- `TransferProtocol.local_path` (transfer.py:64). -/
def base_local_path (home ds rel : String) : String :=
  home ++ "/Work/data/" ++ ds ++ "/" ++ rel

/-- `SSHTransfer.local_path` (transfer.py:150): the local endpoint expressed
as a remote-addressable path through the "mac" alias. -/
def ssh_local_path (home ds rel : String) : String :=
  "mac:" ++ base_local_path home ds rel

/-- `DiscTransfer.remote_path` (transfer.py:113). -/
def disc_remote_path (link ds rel : String) : String :=
  "/Volumes/" ++ link ++ "/data-archive/" ++ ds ++ "/" ++ rel

/-- `SSHTransfer.remote_path` (transfer.py:154). -/
def ssh_remote_path (ds rel : String) : String :=
  "Work/data/" ++ ds ++ "/" ++ rel

/-- `TransferProtocol.rsync_command` (transfer.py:73): archive-preserving,
partial-resume, delete-extraneous, bandwidth-limited mirror; `from_local`
orders source before destination. -/
def rsync_command (lp rp : String) (from_local : Bool) : List String :=
  ["rsync", "-aP", "--delete", "--bwlimit=256000"] ++ (if from_local then [lp, rp] else [rp, lp])

/-- `TransferProtocol.sync` as DiscTransfer inherits it (transfer.py:92-100):
run the mirror as a direct local subprocess and return its real exit code. -/
def disc_sync (env : Env) (link ds rel : String) (from_local : Bool) : Int :=
  env.retcode (rsync_command (base_local_path env.home ds rel) (disc_remote_path link ds rel) from_local)

/-- Output scan of `SSHTransfer.sync` (transfer.py:172-177): read the session's
output lines; 0 as soon as a line equals the echoed marker, 1 when the stream
ends first. -/
def scan_output : List String → String → Int
  | [], _ => 1
  | l :: rest, pwd => if l == pwd then 0 else scan_output rest pwd

/-- `SSHTransfer.sync` (transfer.py:158): the mirror command is replayed into
the interactive session and a fresh random marker echoed after it; the result
is a function only of the session's subsequent output lines and that marker —
the mirrored command's own exit status never reaches this channel. -/
def ssh_sync_result (output : List String) (pwd : String) : Int :=
  scan_output output pwd

end Transfer

namespace Run

/-- `query.get_dataset` (query.py:14): by name when one is given, else the
dataset the current working directory lies under (resolved by the environment
oracle); None when the lookup fails. -/
def get_dataset (env : Env) (db : DB) (name : Option String) : Option Dataset :=
  match name with
  | some n => db.findDataset n
  | none =>
    match env.cwd_dataset with
    | some n => db.findDataset n
    | none => none

/-- The `store` CLI argument as `Dataset.sync` receives it from run.py:293:
the raw string, or None. -/
def store_arg (storeArg : Option String) : StoreLinksArg :=
  match storeArg with
  | some s => .str s
  | none => .pynone

/-- Per-dataset loop of the `sync` command (run.py:291-298): try each dataset;
a nonzero return code raises ValueError inside the try; a ValueError is
re-raised only when exactly one dataset was resolved, any other exception
propagates at once. Each attempted dataset's name is appended to the ghost
`attempts` trace. -/
def sync_loop (env : Env) (storeArg : Option String) (single : Bool) :
    List String → W → Except PyErr Unit × W
  | [], w => (.ok (), w)
  | n :: rest, w =>
    let w0 : W := { w with attempts := w.attempts ++ [n] }
    match Dataset.sync env n (store_arg storeArg) w0 with
    | (.ok rc, w') =>
      if rc == 0 then sync_loop env storeArg single rest w'
      else if single then (.error (.valueError ("Failed to sync " ++ n)), w')
      else sync_loop env storeArg single rest w'
    | (.error (.valueError m), w') =>
      if single then (.error (.valueError m), w') else sync_loop env storeArg single rest w'
    | (.error e, w') => (.error e, w')

/-- The `sync` command (run.py:283): resolve one dataset (named or from the
cwd) or fall back to all datasets, then run the per-dataset loop. -/
def sync (env : Env) (datasetArg storeArg : Option String) (w : W) : Except PyErr Unit × W :=
  match get_dataset env w.db datasetArg with
  | some d => sync_loop env storeArg true [d.name] w
  | none =>
    match datasetArg with
    | some n => (.error (.valueError ("Trying to sync unknown dataset " ++ n)), w)
    | none =>
      let names := w.db.datasets.map (fun d => d.name)
      sync_loop env storeArg (names.length == 1) names w

/-- Modelled from the spec: `Dataset.update_latest_edit` is called from
run.py:315 (and run.py:261) but neither it nor the `latest_edit` column is
defined in src/ models.py. Per the spec it recomputes `latest_edit` "by
scanning the dataset's local directory tree for the most recent file
modification time"; the scan's outcome is the environment oracle
`Env.scan_mtime` applied to the dataset's local path. -/
def update_latest_edit (env : Env) (db : DB) (n : String) : DB :=
  db.setLatestEdit n (some (env.scan_mtime (local_path env.home n)))

/-- Staleness-check loop of the `archive` command (run.py:316-324): the first
archive-store row whose `last_sync` is null or behind the (just recomputed)
`latest_edit` raises a descriptive ValueError. -/
def archive_check (db : DB) (dsname : String) (latest : Nat) : List ToSync → Except PyErr Unit
  | [] => .ok ()
  | r :: rest =>
    match db.findStore r.store_name with
    | none => .error (.attributeError "'NoneType' object has no attribute 'is_archive'")
    | some st =>
      let stale : Bool :=
        match r.last_sync with
        | none => true
        | some t => decide (t < latest)
      if st.is_archive && stale then
        .error (.valueError ("Can not archive dataset " ++ dsname ++
          " because sync to store " ++ r.store_name ++ " is not up to date."))
      else archive_check db dsname latest rest

/-- The `archive` command (run.py:304-326): reject an archived dataset; force
a sync towards the primary when there is one (run.py:314 passes the original
dataset argument and the primary's name string); recompute `latest_edit`;
require every archive-store row fresh; only then set `archived`. -/
def archive (env : Env) (datasetArg : Option String) (w : W) : Except PyErr Unit × W :=
  match get_dataset env w.db datasetArg with
  | none => (.error (.attributeError "'NoneType' object has no attribute 'archived'"), w)
  | some d =>
    if d.archived then
      (.error (.valueError ("Dataset " ++ d.name ++ " is already archived.")), w)
    else
      let pre : Except PyErr Unit × W :=
        match d.primary_name with
        | some p => sync env datasetArg (some p) w
        | none => (.ok (), w)
      match pre with
      | (.error e, w') => (.error e, w')
      | (.ok _, w') =>
        let w2 : W := { w' with db := update_latest_edit env w'.db d.name }
        let latest := env.scan_mtime (local_path env.home d.name)
        let rows := w2.db.tosync.filter (fun r => r.dataset_name == d.name)
        match archive_check w2.db d.name latest rows with
        | .error e => (.error e, w2)
        | .ok _ => (.ok (), { w2 with db := w2.db.setArchived d.name true })

/-- The `set_primary` command (run.py:122-155): reject archived datasets, an
unknown or archive new primary; do nothing when the primary is unchanged;
otherwise (unless skipped) force a sync towards the new authoritative store
(run.py:149-153), and only then update the `primary` reference. The dead
None-check on run.py:133 (after `dataset.archived` was already read) is the
attributeError case. -/
def set_primary (env : Env) (datasetArg primaryArg : Option String) (skip_sync : Bool) (w : W) :
    Except PyErr Unit × W :=
  match get_dataset env w.db datasetArg with
  | none => (.error (.attributeError "'NoneType' object has no attribute 'archived'"), w)
  | some d =>
    if d.archived then
      (.error (.valueError "Cannot set primary of archived dataset."), w)
    else
      let newPrimary : Except PyErr (Option DataStore) :=
        match primaryArg with
        | none => .ok none
        | some pn =>
          match w.db.findStore pn with
          | none => .error (.valueError ("Attempted to get non-existant DataStore: " ++ pn ++ "."))
          | some p =>
            if p.is_archive then
              .error (.valueError "Primary cannot be set to an archive data store.")
            else .ok (some p)
      match newPrimary with
      | .error e => (.error e, w)
      | .ok pOpt =>
        let newName : Option String := pOpt.map (fun p => p.name)
        if d.primary_name == newName then (.ok (), w)
        else
          let pre : Except PyErr Unit × W :=
            if skip_sync then (.ok (), w)
            else
              let target : Option String :=
                match pOpt with
                | none => d.primary_name
                | some p => some p.name
              sync env (some d.name) target w
          match pre with
          | (.error e, w') => (.error e, w')
          | (.ok _, w') => (.ok (), { w' with db := w'.db.setPrimaryName d.name newName })

/-- Store loop of the `unarchive` command (run.py:344-351), a for-else: skip
non-archive stores and unavailable connections; for the first archive store
whose `get_connection` returns a link, the code calls `link.sync(...)` — an
attribute access on the returned string, which raises AttributeError. `ok
false` is the loop falling through to its else clause. -/
def unarchive_loop (env : Env) : List DataStore → W → Except PyErr Bool × W
  | [], w => (.ok false, w)
  | s :: rest, w =>
    if !s.is_archive then unarchive_loop env rest w
    else
      match DataStore.get_connection env s w with
      | (.error e, w') => (.error e, w')
      | (.ok none, w') => unarchive_loop env rest w'
      | (.ok (some _), w') =>
        (.error (.attributeError "'str' object has no attribute 'sync'"), w')

/-- The `unarchive` command (run.py:334-357): reject a non-archived dataset;
try each archive store; on a successful pull clear `archived` and reset the
primary to local (unreachable in this snapshot, see `unarchive_loop`). -/
def unarchive (env : Env) (datasetArg : Option String) (w : W) : Except PyErr Unit × W :=
  match get_dataset env w.db datasetArg with
  | none => (.error (.attributeError "'NoneType' object has no attribute 'archived'"), w)
  | some d =>
    if !d.archived then
      (.error (.valueError ("Dataset " ++ d.name ++ " is not archived already.")), w)
    else
      match unarchive_loop env w.db.stores w with
      | (.error e, w') => (.error e, w')
      | (.ok false, w') =>
        (.error (.valueError ("Could not retrieve " ++ d.name ++ " from archive.")), w')
      | (.ok true, w') =>
        (.ok (), { w' with db := (w'.db.setArchived d.name false).setPrimaryName d.name none })

end Run

/-- `in_session` (models.py:203): run the operation in a session and commit on
normal return; an exception leaves the session uncommitted, so the persisted
database is the one from before the call. The ghost logs are observations, not
persisted state, and survive. -/
def in_session {α : Type} (f : W → Except PyErr α × W) (w : W) : Except PyErr α × W :=
  match f w with
  | (.ok a, w') => (.ok a, w')
  | (.error e, w') => (.error e, { w' with db := w.db })

/-- The key set of the sync-relation table: which (dataset, store) pairs have
a ToSync row. -/
def DB.hasToSync (db : DB) (dn sn : String) : Bool :=
  (db.findToSync dn sn).isSome

/-- Pure characterization of the return codes `Dataset.sync` collects over the
non-primary entries of a store-links dict (the formula of claim C10): an
entry is skipped when it is the primary, its link is None, or its row is
missing on a non-archive store; an executed entry contributes the exit code
of its push command; a row created for an archive store is visible to later
entries. The junk branches (missing store, absent link) are unreachable when
`Dataset.sync` returns normally. -/
def nonPrimaryCodes (env : Env) (dn : String) (pn : Option String) :
    List (String × Option String) → DB → List Int
  | [], _ => []
  | (sn, link) :: rest, db =>
    if pn == some sn || link == none then nonPrimaryCodes env dn pn rest db
    else
      match link, db.findStore sn with
      | some l, some st =>
        let code := env.retcode ["rsync", "-aP", local_path env.home dn,
          (store_path st.type l dn).getD ""]
        if (db.findToSync dn sn).isSome then code :: nonPrimaryCodes env dn pn rest db
        else if st.is_archive then
          code :: nonPrimaryCodes env dn pn rest
            { db with tosync := db.tosync ++ [⟨dn, sn, none⟩] }
        else nonPrimaryCodes env dn pn rest db
      | _, _ => []

/-- Two databases agree on everything the non-primary sync loop of one dataset
observes: the store table, and which of the dataset's ToSync rows exist. -/
def SyncView (dn : String) (db1 db2 : DB) : Prop :=
  (∀ sn, db1.findStore sn = db2.findStore sn) ∧
  (∀ sn, (db1.findToSync dn sn).isSome = (db2.findToSync dn sn).isSome)

/-- Concrete fixtures for witnesses and counterexamples. -/
def envW : Env :=
  { retcode := fun _ => 0, isdir := fun _ => true, now := 100, home := "H",
    scan_mtime := fun _ => 5, cwd_dataset := none }

def storeS : DataStore := { name := "s1", link := "s1", type := "ssh", is_archive := false }

def storeArc : DataStore := { name := "arc", link := "vol", type := "disc", is_archive := true }

def dsLocal : Dataset :=
  { name := "d1", description := "d1", archived := false, primary_name := none,
    latest_edit := none }

def dsPrim : Dataset :=
  { name := "d2", description := "d2", archived := false, primary_name := some "s1",
    latest_edit := none }

def wC2 : W :=
  { db := { stores := [storeS], datasets := [dsLocal, dsPrim],
            tosync := [⟨"d1", "s1", none⟩, ⟨"d2", "s1", none⟩] },
    log := [], attempts := [] }

def wC10out : W := (Dataset.sync envW "d2" (.dict [("s1", some "h1")]) wC2).2

deriving instance DecidableEq for Except

def dsLocal9 : Dataset :=
  { name := "d9", description := "d9", archived := false, primary_name := none,
    latest_edit := none }

/-- Two datasets, no stores: fixture for the bulk-sync aggregation claim. -/
def wC3 : W :=
  { db := { stores := [], datasets := [dsLocal, dsLocal9], tosync := [] },
    log := [], attempts := [] }

def storeS2 : DataStore := { name := "s2", link := "s2", type := "ssh", is_archive := false }

/-- Dataset `d2` with primary `s1` and a second candidate primary `s2`:
fixture for the set_primary claim. -/
def wC4 : W :=
  { db := { stores := [storeS, storeS2], datasets := [dsPrim],
            tosync := [⟨"d2", "s1", none⟩] },
    log := [], attempts := [] }

def eC4 : PyErr := .typeError "'in <string>' requires string as left operand, not DataStore"

def wC4err : W := { wC4 with attempts := ["d2"] }

def dsArch : Dataset :=
  { name := "da", description := "da", archived := true, primary_name := none,
    latest_edit := none }

/-- An archived dataset and one reachable disc archive store: fixture for the
unarchive claim. -/
def wC5 : W :=
  { db := { stores := [storeArc], datasets := [dsArch], tosync := [] },
    log := [], attempts := [] }

/-- Dataset `d1` with a never-synced archive row: fixture for the archive
claims (the scan oracle of `envW` reports latest edit 5). -/
def wC1 : W :=
  { db := { stores := [storeArc], datasets := [dsLocal],
            tosync := [⟨"d1", "arc", none⟩] },
    log := [], attempts := [] }

/-- Same dataset with the archive row synced at time 10, ahead of the scanned
latest edit 5: fixture for the successful archive path. -/
def wC6 : W :=
  { db := { stores := [storeArc], datasets := [dsLocal],
            tosync := [⟨"d1", "arc", some 10⟩] },
    log := [], attempts := [] }

section Lemmas

theorem setLastSync_stores (db : DB) (dn sn : String) (t : Nat) :
    (db.setLastSync dn sn t).stores = db.stores := rfl

theorem setLastSync_datasets (db : DB) (dn sn : String) (t : Nat) :
    (db.setLastSync dn sn t).datasets = db.datasets := rfl

theorem findToSync_setLastSync_isSome (db : DB) (a b : String) (t : Nat) (x y : String) :
    ((db.setLastSync a b t).findToSync x y).isSome = (db.findToSync x y).isSome := by
  unfold DB.findToSync DB.setLastSync
  simp only [List.find?_map]
  have h : (fun r : ToSync => r.dataset_name == x && r.store_name == y) ∘
      (fun r : ToSync => if r.dataset_name == a && r.store_name == b then
        { r with last_sync := some t } else r) =
      fun r : ToSync => r.dataset_name == x && r.store_name == y := by
    funext r
    by_cases h : (r.dataset_name == a && r.store_name == b) = true
    · simp only [Function.comp_apply, if_pos h]
    · simp only [Function.comp_apply, if_neg h]
  rw [h]
  cases db.tosync.find? (fun r => r.dataset_name == x && r.store_name == y) <;> rfl

theorem get_connection_loop_db (env : Env) (t : String) (ls : List String) (w : W) :
    (get_connection_loop env t ls w).2.db = w.db ∧
    (get_connection_loop env t ls w).2.attempts = w.attempts := by
  induction ls generalizing w with
  | nil => exact ⟨rfl, rfl⟩
  | cons l rest ih =>
    unfold get_connection_loop
    by_cases hssh : (t == "ssh") = true
    · simp only [hssh, if_true]
      by_cases hrc : (env.retcode ["ssh", l, "-oBatchMode=yes", "-q", "echo"] == 0) = true
      · simp [hrc]
      · simp only [hrc, if_false, Bool.false_eq_true]
        exact ih _
    · by_cases hdisc : (t == "disc") = true
      · simp only [hssh, hdisc, if_true, if_false, Bool.false_eq_true]
        by_cases hdir : env.isdir ("/Volumes/" ++ l ++ "/data-archive/") = true
        · simp [hdir]
        · simp only [hdir, if_false, Bool.false_eq_true]
          exact ih _
      · simp [hssh, hdisc]

theorem get_connection_db (env : Env) (s : DataStore) (w : W) :
    (DataStore.get_connection env s w).2.db = w.db ∧
    (DataStore.get_connection env s w).2.attempts = w.attempts :=
  get_connection_loop_db env s.type (split_commas s.link) w

/-- `run_rsync_row` in closed form: return the command's exit code, log the
command, and advance `last_sync` exactly when the code is 0. -/
theorem run_rsync_row_spec (env : Env) (dn sn : String) (cmd : List String) (w : W) :
    run_rsync_row env dn sn cmd w =
      (.ok (env.retcode cmd),
       { w with log := w.log ++ [cmd],
                db := if env.retcode cmd = 0 then w.db.setLastSync dn sn env.now else w.db }) := by
  unfold run_rsync_row
  by_cases h : env.retcode cmd = 0 <;> simp [h]

/-- An exception from `ToSync.sync` leaves the world untouched. -/
theorem tosync_sync_err (env : Env) (dn sn : String) (link : Option String) (w : W)
    (e : PyErr) (w' : W) (h : ToSync.sync env dn sn link w = (.error e, w')) : w' = w := by
  unfold ToSync.sync at h
  split at h
  · exact (congrArg Prod.snd h).symm
  split at h
  · exact (congrArg Prod.snd h).symm
  split at h
  · exact (congrArg Prod.snd h).symm
  split at h
  · exact (congrArg Prod.snd h).symm
  split at h
  · split at h
    · exact (congrArg Prod.snd h).symm
    split at h
    · exact (congrArg Prod.snd h).symm
    · rw [run_rsync_row_spec] at h
      exact absurd (congrArg Prod.fst h) (by simp)
  · split at h
    · exact (congrArg Prod.snd h).symm
    · rw [run_rsync_row_spec] at h
      exact absurd (congrArg Prod.fst h) (by simp)

/-- A normal return of `ToSync.sync` is the exit code of exactly one logged
rsync command; `last_sync` of this row advances to now exactly when that code
is 0, and nothing else in the database changes. -/
theorem tosync_sync_ok (env : Env) (dn sn : String) (link : Option String) (w : W)
    (rc : Int) (w' : W) (h : ToSync.sync env dn sn link w = (.ok rc, w')) :
    ∃ cmd, rc = env.retcode cmd ∧ w'.log = w.log ++ [cmd] ∧ w'.attempts = w.attempts ∧
      (rc = 0 → w'.db = w.db.setLastSync dn sn env.now) ∧ (rc ≠ 0 → w'.db = w.db) := by
  unfold ToSync.sync at h
  split at h
  · exact absurd (congrArg Prod.fst h) (by simp)
  split at h
  · exact absurd (congrArg Prod.fst h) (by simp)
  split at h
  · exact absurd (congrArg Prod.fst h) (by simp)
  split at h
  · exact absurd (congrArg Prod.fst h) (by simp)
  split at h
  · split at h
    · exact absurd (congrArg Prod.fst h) (by simp)
    split at h
    · exact absurd (congrArg Prod.fst h) (by simp)
    · rename_i sp hsp
      refine ⟨["rsync", "-aP", sp, local_path env.home dn], ?_⟩
      rw [run_rsync_row_spec] at h
      have h1 := congrArg Prod.fst h
      have h2 := congrArg Prod.snd h
      simp only at h1 h2
      injection h1 with h1
      subst h2
      subst h1
      refine ⟨rfl, rfl, rfl, ?_, ?_⟩
      · intro h0
        simp [h0]
      · intro h0
        simp [h0]
  · split at h
    · exact absurd (congrArg Prod.fst h) (by simp)
    · rename_i sp hsp
      refine ⟨["rsync", "-aP", local_path env.home dn, sp], ?_⟩
      rw [run_rsync_row_spec] at h
      have h1 := congrArg Prod.fst h
      have h2 := congrArg Prod.snd h
      simp only at h1 h2
      injection h1 with h1
      subst h2
      subst h1
      refine ⟨rfl, rfl, rfl, ?_, ?_⟩
      · intro h0
        simp [h0]
      · intro h0
        simp [h0]

end Lemmas

section ClaimsTransfer

/-- C7: calling `setup_connection` a second time on the same transport returns
the same boolean as the first call without a second real connection attempt,
for the success and the failure outcome alike: after a first call on a
never-attempted transport, the attempt counter is 1 and a second call (whose
would-be attempt outcome `r2` is arbitrary) returns the memoized boolean and
leaves the state — attempt counter included — untouched. -/
theorem claim_C7_setup_connection_idempotent (r1 r2 : Bool) (ts : Transfer.TransferState)
    (h : ts.setup_suceeded = none) :
    (Transfer.setup_connection r2 (Transfer.setup_connection r1 ts).2).1 =
      (Transfer.setup_connection r1 ts).1 ∧
    (Transfer.setup_connection r1 ts).2.attempts = ts.attempts + 1 ∧
    (Transfer.setup_connection r2 (Transfer.setup_connection r1 ts).2).2 =
      (Transfer.setup_connection r1 ts).2 := by
  simp [Transfer.setup_connection, h]

theorem claim_C7_witness :
    Transfer.freshTransfer.setup_suceeded = none ∧
    ((Transfer.setup_connection true (Transfer.setup_connection false Transfer.freshTransfer).2).1 =
      (Transfer.setup_connection false Transfer.freshTransfer).1 ∧
    (Transfer.setup_connection false Transfer.freshTransfer).2.attempts =
      Transfer.freshTransfer.attempts + 1 ∧
    (Transfer.setup_connection true (Transfer.setup_connection false Transfer.freshTransfer).2).2 =
      (Transfer.setup_connection false Transfer.freshTransfer).2) :=
  ⟨rfl, claim_C7_setup_connection_idempotent false true Transfer.freshTransfer rfl⟩

/-- C9: `SSHTransfer.sync` returns only 0 or 1, and returns 0 exactly when the
fresh completion marker reappears as a line of the session's output stream
(the mirrored command's own exit status never enters the result), while
`DiscTransfer.sync` returns the mirror subprocess's real exit code. -/
theorem claim_C9_ssh_marker_vs_disc_exit_code :
    (∀ output pwd, Transfer.ssh_sync_result output pwd = 0 ∨
      Transfer.ssh_sync_result output pwd = 1) ∧
    (∀ output pwd, Transfer.ssh_sync_result output pwd = 0 ↔ pwd ∈ output) ∧
    (∀ env link ds rel fl, Transfer.disc_sync env link ds rel fl =
      env.retcode (Transfer.rsync_command (Transfer.base_local_path env.home ds rel)
        (Transfer.disc_remote_path link ds rel) fl)) := by
  refine ⟨?_, ?_, fun _ _ _ _ _ => rfl⟩
  · intro output pwd
    induction output with
    | nil => right; rfl
    | cons l rest ih =>
      by_cases h : (l == pwd) = true
      · left
        simp [Transfer.ssh_sync_result, Transfer.scan_output, h]
      · simpa [Transfer.ssh_sync_result, Transfer.scan_output, h] using ih
  · intro output pwd
    induction output with
    | nil => simp [Transfer.ssh_sync_result, Transfer.scan_output]
    | cons l rest ih =>
      by_cases h : (l == pwd) = true
      · have hl : l = pwd := by simpa using h
        simp [Transfer.ssh_sync_result, Transfer.scan_output, h, hl]
      · have hl : ¬l = pwd := by simpa using h
        simp only [Transfer.ssh_sync_result, Transfer.scan_output, h, if_false,
          Bool.false_eq_true, List.mem_cons] at ih ⊢
        rw [ih]
        constructor
        · exact fun hm => Or.inr hm
        · rintro (hm | hm)
          · exact absurd hm.symm hl
          · exact hm

theorem claim_C9_witness :
    Transfer.ssh_sync_result ["building file list", "M"] "M" = 0 ∧
    Transfer.ssh_sync_result ["building file list"] "M" = 1 :=
  ⟨(claim_C9_ssh_marker_vs_disc_exit_code.2.1 ["building file list", "M"] "M").mpr (by simp),
   by decide⟩

end ClaimsTransfer

section ClaimsToSync

/-- C8: a ToSync row's `last_sync` is mutated only by a successful sync of
that (dataset, store) pair, in which case it advances to the current time
(`DB.setLastSync` writes `env.now` into exactly the matching row); when the
mirror command returns nonzero the database — `last_sync` included — is left
unchanged, and a raised exception leaves the whole world unchanged. Rows with
a different key are never touched. -/
theorem claim_C8_last_sync_only_on_success (env : Env) (dn sn : String)
    (link : Option String) (w : W) :
    (∀ rc w', ToSync.sync env dn sn link w = (.ok rc, w') →
      (rc = 0 → w'.db = w.db.setLastSync dn sn env.now) ∧
      (rc ≠ 0 → w'.db = w.db) ∧
      (∀ r ∈ w.db.tosync, ¬(r.dataset_name = dn ∧ r.store_name = sn) → r ∈ w'.db.tosync)) ∧
    (∀ e w', ToSync.sync env dn sn link w = (.error e, w') → w' = w) := by
  refine ⟨?_, fun e w' h => tosync_sync_err env dn sn link w e w' h⟩
  intro rc w' h
  obtain ⟨cmd, _, _, _, h0, h1⟩ := tosync_sync_ok env dn sn link w rc w' h
  refine ⟨h0, h1, ?_⟩
  intro r hr hkey
  by_cases hz : rc = 0
  · rw [h0 hz]
    unfold DB.setLastSync
    simp only [List.mem_map]
    refine ⟨r, hr, ?_⟩
    have : (r.dataset_name == dn && r.store_name == sn) = false := by
      by_cases hd : r.dataset_name = dn
      · by_cases hs : r.store_name = sn
        · exact absurd ⟨hd, hs⟩ hkey
        · simp [hs]
      · simp [hd]
    simp [this]
  · rw [h1 hz]
    exact hr

end ClaimsToSync

section ClaimsDirection

/-- When the store is not the dataset's primary, `ToSync.sync` runs a push:
the local path is the rsync source, the store path the destination. -/
theorem tosync_sync_push_eq (env : Env) (dn sn l : String) (w : W)
    (d : Dataset) (st : DataStore) (sp : String)
    (hd : w.db.findDataset dn = some d) (ha : d.archived = false)
    (hs : w.db.findStore sn = some st) (hp : (d.primary_name == some sn) = false)
    (hsp : store_path st.type l dn = some sp) :
    ToSync.sync env dn sn (some l) w =
      run_rsync_row env dn sn ["rsync", "-aP", local_path env.home dn, sp] w := by
  unfold ToSync.sync
  rw [hd]
  simp only [ha, Bool.false_eq_true, if_false]
  rw [hs]
  simp only [hp, Bool.false_eq_true, if_false]
  rw [hsp]

/-- When the store is the dataset's (non-archive) primary, `ToSync.sync` runs
a pull: the store path is the rsync source, the local path the destination. -/
theorem tosync_sync_pull_eq (env : Env) (dn sn l : String) (w : W)
    (d : Dataset) (st : DataStore) (sp : String)
    (hd : w.db.findDataset dn = some d) (ha : d.archived = false)
    (hs : w.db.findStore sn = some st) (hp : (d.primary_name == some sn) = true)
    (harc : st.is_archive = false) (hsp : store_path st.type l dn = some sp) :
    ToSync.sync env dn sn (some l) w =
      run_rsync_row env dn sn ["rsync", "-aP", sp, local_path env.home dn] w := by
  unfold ToSync.sync
  rw [hd]
  simp only [ha, Bool.false_eq_true, if_false]
  rw [hs]
  simp only [hp, if_true, harc, Bool.false_eq_true, if_false]
  rw [hsp]

/-- C2: for a dataset with no primary and a non-archive store with an existing
ToSync row, `Dataset.sync` over that store's link executes a local-to-store
push (the logged rsync command's source is the local path, its destination the
store path); for a dataset whose primary is that store, it executes a
store-to-local pull (source and destination swapped) and, no non-primary sync
having run, returns 1. -/
theorem claim_C2_sync_direction :
    (∀ (env : Env) (w : W) (n : String) (d : Dataset) (sn : String) (st : DataStore) (l : String),
      w.db.findDataset n = some d → d.archived = false → d.primary_name = none →
      w.db.findStore sn = some st → st.is_archive = false →
      (st.type = "ssh" ∨ st.type = "disc") → (w.db.findToSync n sn).isSome = true →
      ∃ rc w' sp, store_path st.type l n = some sp ∧
        Dataset.sync env n (.dict [(sn, some l)]) w = (.ok rc, w') ∧
        w'.log = w.log ++ [["rsync", "-aP", local_path env.home n, sp]]) ∧
    (∀ (env : Env) (w : W) (n : String) (d : Dataset) (p : String) (st : DataStore) (l : String),
      w.db.findDataset n = some d → d.archived = false → d.primary_name = some p →
      w.db.findStore p = some st → st.is_archive = false →
      (st.type = "ssh" ∨ st.type = "disc") → (w.db.findToSync n p).isSome = true →
      ∃ w' sp, store_path st.type l n = some sp ∧
        Dataset.sync env n (.dict [(p, some l)]) w = (.ok 1, w') ∧
        w'.log = w.log ++ [["rsync", "-aP", sp, local_path env.home n]]) := by
  constructor
  · intro env w n d sn st l hd ha hpn hs harc hty hrow
    have hsp : ∃ sp, store_path st.type l n = some sp := by
      rcases hty with h | h <;> simp [store_path, h]
    obtain ⟨sp, hsp⟩ := hsp
    obtain ⟨r, hr⟩ := Option.isSome_iff_exists.mp hrow
    have hps : (d.primary_name == some sn) = false := by simp [hpn]
    have hts := tosync_sync_push_eq env n sn l w d st sp hd ha hs hps hsp
    have key : Dataset.sync env n (.dict [(sn, some l)]) w =
        (.ok (syncReturn [env.retcode ["rsync", "-aP", local_path env.home n, sp]]),
         { w with
            log := w.log ++ [["rsync", "-aP", local_path env.home n, sp]],
            db := if env.retcode ["rsync", "-aP", local_path env.home n, sp] = 0 then
              w.db.setLastSync n sn env.now else w.db }) := by
      unfold Dataset.sync
      rw [hd]
      simp only [hpn]
      unfold sync_links_loop
      simp only [hr, hts, run_rsync_row_spec]
      rfl
    exact ⟨_, _, sp, hsp, key, rfl⟩
  · intro env w n d p st l hd ha hpn hs harc hty hrow
    have hsp : ∃ sp, store_path st.type l n = some sp := by
      rcases hty with h | h <;> simp [store_path, h]
    obtain ⟨sp, hsp⟩ := hsp
    obtain ⟨r, hr⟩ := Option.isSome_iff_exists.mp hrow
    have hps : (d.primary_name == some p) = true := by simp [hpn]
    have hts := tosync_sync_pull_eq env n p l w d st sp hd ha hs hps harc hsp
    have key : Dataset.sync env n (.dict [(p, some l)]) w =
        (.ok 1,
         { w with
            log := w.log ++ [["rsync", "-aP", sp, local_path env.home n]],
            db := if env.retcode ["rsync", "-aP", sp, local_path env.home n] = 0 then
              w.db.setLastSync n p env.now else w.db }) := by
      unfold Dataset.sync
      rw [hd]
      simp only [hpn]
      unfold sync_primary_prelude
      have hpp : (p == p) = true := by simp
      simp only [List.find?_cons, hpp, if_true]
      rw [hr]
      simp only [hts, run_rsync_row_spec]
      unfold sync_links_loop
      simp only [beq_self_eq_true, Bool.true_or, if_true]
      unfold sync_links_loop
      rfl
    exact ⟨_, sp, hsp, key, rfl⟩

end ClaimsDirection

section ClaimsReturnCode

theorem find?_append_isSome {α : Type} (p : α → Bool) (l1 l2 : List α) :
    ((l1 ++ l2).find? p).isSome = ((l1.find? p).isSome || (l2.find? p).isSome) := by
  induction l1 with
  | nil => simp
  | cons a t ih =>
    by_cases h : p a = true
    · simp [List.find?_cons, h]
    · simp only [List.cons_append, List.find?_cons, h, Bool.false_eq_true, if_false]
      exact ih

theorem syncView_setLastSync (dn : String) (db : DB) (a b : String) (t : Nat) :
    SyncView dn (db.setLastSync a b t) db :=
  ⟨fun _ => rfl, fun sn => findToSync_setLastSync_isSome db a b t dn sn⟩

theorem syncView_append (dn : String) (db1 db2 : DB) (hv : SyncView dn db1 db2) (r : ToSync) :
    SyncView dn { db1 with tosync := db1.tosync ++ [r] }
      { db2 with tosync := db2.tosync ++ [r] } := by
  refine ⟨fun sn => hv.1 sn, fun sn => ?_⟩
  show ((db1.tosync ++ [r]).find? _).isSome = ((db2.tosync ++ [r]).find? _).isSome
  rw [find?_append_isSome, find?_append_isSome]
  have := hv.2 sn
  unfold DB.findToSync at this
  rw [this]

theorem nonPrimaryCodes_congr (env : Env) (dn : String) (pn : Option String)
    (es : List (String × Option String)) :
    ∀ db1 db2, SyncView dn db1 db2 →
      nonPrimaryCodes env dn pn es db1 = nonPrimaryCodes env dn pn es db2 := by
  induction es with
  | nil => intro db1 db2 _; rfl
  | cons e rest ih =>
    intro db1 db2 hv
    obtain ⟨sn, link⟩ := e
    unfold nonPrimaryCodes
    by_cases hg : (pn == some sn || link == none) = true
    · simp only [hg, if_true]
      exact ih db1 db2 hv
    · simp only [hg, Bool.false_eq_true, if_false]
      rw [hv.1 sn]
      cases link with
      | none => simp at hg
      | some l =>
        cases hst : db2.findStore sn with
        | none => rfl
        | some st =>
          simp only
          rw [hv.2 sn]
          by_cases hr : (db2.findToSync dn sn).isSome = true
          · simp only [hr, if_true]
            rw [ih db1 db2 hv]
          · simp only [hr, Bool.false_eq_true, if_false]
            by_cases harc : st.is_archive = true
            · simp only [harc, if_true]
              rw [ih _ _ (syncView_append dn db1 db2 hv ⟨dn, sn, none⟩)]
            · simp only [harc, Bool.false_eq_true, if_false]
              exact ih db1 db2 hv

/-- Inversion of a normal `ToSync.sync` return on a non-primary store: it was
a push whose return code is the push command's exit code, and the database
afterwards is unchanged or has only this row's `last_sync` advanced. -/
theorem tosync_sync_ok_push_inv (env : Env) (dn sn l : String) (w : W) (rc : Int) (w2 : W)
    (d : Dataset) (hd : w.db.findDataset dn = some d)
    (hp : (d.primary_name == some sn) = false)
    (h : ToSync.sync env dn sn (some l) w = (.ok rc, w2)) :
    ∃ st sp, w.db.findStore sn = some st ∧ store_path st.type l dn = some sp ∧
      rc = env.retcode ["rsync", "-aP", local_path env.home dn, sp] ∧
      (w2.db = w.db ∨ w2.db = w.db.setLastSync dn sn env.now) ∧
      w2.db.datasets = w.db.datasets := by
  have ha : d.archived = false := by
    cases hA : d.archived
    · rfl
    · exfalso
      unfold ToSync.sync at h
      rw [hd] at h
      simp [hA] at h
  cases hst : w.db.findStore sn with
  | none =>
    exfalso
    unfold ToSync.sync at h
    rw [hd] at h
    simp only [ha, Bool.false_eq_true, if_false] at h
    rw [hst] at h
    exact absurd (congrArg Prod.fst h) (by simp)
  | some st =>
    cases hsp : store_path st.type l dn with
    | none =>
      exfalso
      unfold ToSync.sync at h
      rw [hd] at h
      simp only [ha, Bool.false_eq_true, if_false] at h
      rw [hst] at h
      simp only [hp, Bool.false_eq_true, if_false] at h
      rw [hsp] at h
      exact absurd (congrArg Prod.fst h) (by simp)
    | some sp =>
      have key := tosync_sync_push_eq env dn sn l w d st sp hd ha hst hp hsp
      rw [key, run_rsync_row_spec] at h
      have h1 := congrArg Prod.fst h
      have h2 := congrArg Prod.snd h
      simp only at h1 h2
      injection h1 with h1
      refine ⟨st, sp, rfl, hsp, h1.symm, ?_, ?_⟩
      · by_cases hz : env.retcode ["rsync", "-aP", local_path env.home dn, sp] = 0
        · right
          rw [← h2]
          simp [hz]
        · left
          rw [← h2]
          simp [hz]
      · rw [← h2]
        by_cases hz : env.retcode ["rsync", "-aP", local_path env.home dn, sp] = 0 <;>
          simp [hz, setLastSync_datasets]

/-- The store loop of `Dataset.sync`, on a normal return, collects exactly the
codes `nonPrimaryCodes` computes from the state at the loop's entry. -/
theorem sync_links_loop_codes (env : Env) (dn : String) (pn : Option String)
    (entries : List (String × Option String)) :
    ∀ (codes codes' : List Int) (w w' : W) (d : Dataset),
      w.db.findDataset dn = some d → d.primary_name = pn →
      sync_links_loop env dn pn entries codes w = (.ok codes', w') →
      codes' = codes ++ nonPrimaryCodes env dn pn entries w.db := by
  induction entries with
  | nil =>
    intro codes codes' w w' d _ _ h
    unfold sync_links_loop at h
    have h1 := congrArg Prod.fst h
    simp only at h1
    injection h1 with h1
    simp [nonPrimaryCodes, ← h1]
  | cons e rest ih =>
    intro codes codes' w w' d hd hp h
    obtain ⟨sn, link⟩ := e
    unfold sync_links_loop at h
    unfold nonPrimaryCodes
    by_cases hg : (pn == some sn || link == none) = true
    · simp only [hg, if_true] at h ⊢
      exact ih codes codes' w w' d hd hp h
    · simp only [hg, Bool.false_eq_true, if_false] at h ⊢
      have hlink : ∃ l, link = some l := by
        cases link
        · exfalso
          simp at hg
        · exact ⟨_, rfl⟩
      obtain ⟨l, rfl⟩ := hlink
      have hpsn : (d.primary_name == some sn) = false := by
        rw [hp]
        cases hq : (pn == some sn)
        · rfl
        · exfalso
          simp [hq] at hg
      cases hrow : w.db.findToSync dn sn with
      | some r =>
        simp only [hrow] at h
        rcases hts : ToSync.sync env dn sn (some l) w with ⟨res, w2⟩
        rw [hts] at h
        cases res with
        | error e =>
          exact absurd (congrArg Prod.fst h) (by simp)
        | ok rc =>
          obtain ⟨st, sp, hst, hsp, hrc, hdb, hds⟩ :=
            tosync_sync_ok_push_inv env dn sn l w rc w2 d hd hpsn hts
          have hd2 : w2.db.findDataset dn = some d := by
            have : w2.db.findDataset dn = w.db.findDataset dn := by
              unfold DB.findDataset
              rw [hds]
            rw [this, hd]
          have hrec := ih (codes ++ [rc]) codes' w2 w' d hd2 hp h
          have hview : nonPrimaryCodes env dn pn rest w2.db =
              nonPrimaryCodes env dn pn rest w.db := by
            rcases hdb with hdb | hdb
            · rw [hdb]
            · rw [hdb]
              exact nonPrimaryCodes_congr env dn pn rest _ _
                (syncView_setLastSync dn w.db dn sn env.now)
          rw [hst]
          simp only [hrow, Option.isSome_some, if_true, hsp, Option.getD_some]
          rw [hrec, hview, hrc]
          simp
      | none =>
        simp only [hrow] at h
        cases hst : w.db.findStore sn with
        | none =>
          rw [hst] at h
          exact absurd (congrArg Prod.fst h) (by simp)
        | some st =>
          rw [hst] at h
          by_cases harc : st.is_archive = true
          · simp only [harc, if_true] at h
            rcases hts : ToSync.sync env dn sn (some l)
                { w with db := { w.db with tosync := w.db.tosync ++ [⟨dn, sn, none⟩] } }
              with ⟨res, w2⟩
            rw [hts] at h
            cases res with
            | error e =>
              exact absurd (congrArg Prod.fst h) (by simp)
            | ok rc =>
              have hd1 : ({ w with
                  db := { w.db with tosync := w.db.tosync ++ [⟨dn, sn, none⟩] } } : W).db.findDataset dn =
                  some d := hd
              obtain ⟨st', sp, hst', hsp, hrc, hdb, hds⟩ :=
                tosync_sync_ok_push_inv env dn sn l _ rc w2 d hd1 hpsn hts
              have hstq : st' = st := by
                have : ({ w with
                    db := { w.db with tosync := w.db.tosync ++ [⟨dn, sn, none⟩] } } : W).db.findStore sn =
                    w.db.findStore sn := rfl
                rw [this, hst] at hst'
                injection hst' with hst'
                exact hst'.symm
              have hd2 : w2.db.findDataset dn = some d := by
                have : w2.db.findDataset dn = ({ w with
                    db := { w.db with tosync := w.db.tosync ++ [⟨dn, sn, none⟩] } } : W).db.findDataset dn := by
                  unfold DB.findDataset
                  rw [hds]
                rw [this, hd1]
              have hrec := ih (codes ++ [rc]) codes' w2 w' d hd2 hp h
              have hview : nonPrimaryCodes env dn pn rest w2.db =
                  nonPrimaryCodes env dn pn rest { w.db with tosync := w.db.tosync ++ [⟨dn, sn, none⟩] } := by
                rcases hdb with hdb | hdb
                · rw [hdb]
                · rw [hdb]
                  exact nonPrimaryCodes_congr env dn pn rest _ _
                    (syncView_setLastSync dn _ dn sn env.now)
              subst hstq
              simp only [Option.isSome_none, Bool.false_eq_true, if_false, harc, if_true,
                hsp, Option.getD_some]
              rw [hrec, hview, hrc]
              simp
          · simp only [harc, Bool.false_eq_true, if_false] at h
            simp only [Option.isSome_none, Bool.false_eq_true, if_false, harc]
            exact ih codes codes' w w' d hd hp h

/-- A normal return of the primary-pull prelude leaves the database unchanged
except possibly for advancing the primary row's `last_sync`. -/
theorem sync_primary_prelude_ok (env : Env) (dn p : String) (arg : StoreLinksArg)
    (w w1 : W) (h : sync_primary_prelude env dn p arg w = (.ok (), w1)) :
    w1.db = w.db ∨ w1.db = w.db.setLastSync dn p env.now := by
  unfold sync_primary_prelude at h
  cases arg with
  | str s => exact absurd (congrArg Prod.fst h) (by simp)
  | pynone => exact absurd (congrArg Prod.fst h) (by simp)
  | dict entries =>
    cases hfind : entries.find? (fun e => e.1 == p) with
    | some e =>
      simp only [hfind] at h
      cases he2 : e.2 with
      | none =>
        simp only [he2] at h
        exact absurd (congrArg Prod.fst h) (by simp)
      | some l =>
        simp only [he2] at h
        cases hrow : w.db.findToSync dn p with
        | none =>
          simp only [hrow] at h
          exact absurd (congrArg Prod.fst h) (by simp)
        | some r =>
          simp only [hrow] at h
          rcases hts : ToSync.sync env dn p (some l) w with ⟨res, w2⟩
          rw [hts] at h
          cases res with
          | error e' => exact absurd (congrArg Prod.fst h) (by simp)
          | ok rc =>
            have h2 : w2 = w1 := congrArg Prod.snd h
            obtain ⟨cmd, _, _, _, h0, h1⟩ := tosync_sync_ok env dn p (some l) w rc w2 hts
            subst h2
            by_cases hz : rc = 0
            · exact Or.inr (h0 hz)
            · exact Or.inl (h1 hz)
    | none =>
      simp only [hfind] at h
      cases hps : w.db.findStore p with
      | none =>
        simp only [hps] at h
        exact absurd (congrArg Prod.fst h) (by simp)
      | some ps =>
        simp only [hps] at h
        rcases hgc : DataStore.get_connection env ps w with ⟨cres, wg⟩
        rw [hgc] at h
        have hgdb : wg.db = w.db := by
          have := (get_connection_db env ps w).1
          rw [hgc] at this
          exact this
        cases cres with
        | error e' => exact absurd (congrArg Prod.fst h) (by simp)
        | ok link? =>
          cases link? with
          | none => exact absurd (congrArg Prod.fst h) (by simp)
          | some l =>
            cases hrow : wg.db.findToSync dn p with
            | none =>
              simp only [hrow] at h
              exact absurd (congrArg Prod.fst h) (by simp)
            | some r =>
              simp only [hrow] at h
              rcases hts : ToSync.sync env dn p (some l) wg with ⟨res, w2⟩
              rw [hts] at h
              cases res with
              | error e' => exact absurd (congrArg Prod.fst h) (by simp)
              | ok rc =>
                have h2 : w2 = w1 := congrArg Prod.snd h
                obtain ⟨cmd, _, _, _, h0, h1⟩ := tosync_sync_ok env dn p (some l) wg rc w2 hts
                subst h2
                by_cases hz : rc = 0
                · rw [h0 hz, hgdb]
                  exact Or.inr rfl
                · rw [h1 hz, hgdb]
                  exact Or.inl rfl

/-- C10: whenever `Dataset.sync` over a store-links dict returns normally, the
returned value is `syncReturn` of the executed non-primary codes: 1 when that
list is empty — in particular when the dict holds only the dataset's primary
(whose pull code is discarded) or only entries with unavailable links — and
otherwise the minimum absolute value over the executed codes. -/
theorem claim_C10_return_code (env : Env) (w : W) (n : String)
    (entries : List (String × Option String)) (r : Int) (w' : W)
    (h : Dataset.sync env n (.dict entries) w = (.ok r, w')) :
    ∃ d, w.db.findDataset n = some d ∧
      r = syncReturn (nonPrimaryCodes env n d.primary_name entries w.db) := by
  unfold Dataset.sync at h
  cases hd : w.db.findDataset n with
  | none =>
    rw [hd] at h
    exact absurd (congrArg Prod.fst h) (by simp)
  | some d =>
    rw [hd] at h
    refine ⟨d, rfl, ?_⟩
    cases hpn : d.primary_name with
    | none =>
      simp only [hpn] at h
      rcases hl : sync_links_loop env n none entries [] w with ⟨res, w2⟩
      rw [hl] at h
      cases res with
      | error e => exact absurd (congrArg Prod.fst h) (by simp)
      | ok codes =>
        have hcodes := sync_links_loop_codes env n none entries [] codes w w2 d hd hpn hl
        have h1 : (Except.ok (syncReturn codes) : Except PyErr Int) = Except.ok r := congrArg Prod.fst h
        injection h1 with h1
        rw [← h1, hcodes]
        simp
    | some p =>
      simp only [hpn] at h
      rcases hpre : sync_primary_prelude env n p (.dict entries) w with ⟨pres, w1⟩
      cases pres with
      | error e =>
        simp only [hpre] at h
        exact absurd (congrArg Prod.fst h) (by simp)
      | ok u =>
        cases u
        simp only [hpre] at h
        have hdb1 := sync_primary_prelude_ok env n p (.dict entries) w w1 hpre
        rcases hl : sync_links_loop env n (some p) entries [] w1 with ⟨res, w2⟩
        rw [hl] at h
        cases res with
        | error e => exact absurd (congrArg Prod.fst h) (by simp)
        | ok codes =>
          have hd1 : w1.db.findDataset n = some d := by
            rcases hdb1 with hh | hh <;> rw [hh] <;> exact hd
          have hcodes := sync_links_loop_codes env n (some p) entries [] codes w1 w2 d hd1 hpn hl
          have hview : nonPrimaryCodes env n (some p) entries w1.db =
              nonPrimaryCodes env n (some p) entries w.db := by
            rcases hdb1 with hh | hh
            · rw [hh]
            · rw [hh]
              exact nonPrimaryCodes_congr env n (some p) entries _ _
                (syncView_setLastSync n w.db n p env.now)
          have h1 : (Except.ok (syncReturn codes) : Except PyErr Int) = Except.ok r := congrArg Prod.fst h
          injection h1 with h1
          rw [← h1, hcodes, hview]
          simp

theorem claim_C10_witness :
    ∃ d, wC2.db.findDataset "d2" = some d ∧
      (1 : Int) = syncReturn (nonPrimaryCodes envW "d2" d.primary_name
        [("s1", some "h1")] wC2.db) :=
  claim_C10_return_code envW wC2 "d2" [("s1", some "h1")] 1 wC10out (by rfl)

theorem claim_C2_witness :
    (∃ rc w' sp, store_path storeS.type "h1" "d1" = some sp ∧
      Dataset.sync envW "d1" (.dict [("s1", some "h1")]) wC2 = (.ok rc, w') ∧
      w'.log = wC2.log ++ [["rsync", "-aP", local_path envW.home "d1", sp]]) ∧
    (∃ w' sp, store_path storeS.type "h1" "d2" = some sp ∧
      Dataset.sync envW "d2" (.dict [("s1", some "h1")]) wC2 = (.ok 1, w') ∧
      w'.log = wC2.log ++ [["rsync", "-aP", sp, local_path envW.home "d2"]]) :=
  ⟨claim_C2_sync_direction.1 envW wC2 "d1" dsLocal "s1" storeS "h1" (by decide) (by decide)
      (by decide) (by decide) (by decide) (Or.inl (by decide)) (by decide),
   claim_C2_sync_direction.2 envW wC2 "d2" dsPrim "s1" storeS "h1" (by decide) (by decide)
      (by decide) (by decide) (by decide) (Or.inl (by decide)) (by decide)⟩

end ClaimsReturnCode

section RunLemmas

theorem tosync_sync_datasets (env : Env) (dn sn : String) (link : Option String) (w : W) :
    (ToSync.sync env dn sn link w).2.db.datasets = w.db.datasets := by
  rcases h : ToSync.sync env dn sn link w with ⟨res, w2⟩
  cases res with
  | error e =>
    rw [tosync_sync_err env dn sn link w e w2 h]
  | ok rc =>
    obtain ⟨cmd, _, _, _, h0, h1⟩ := tosync_sync_ok env dn sn link w rc w2 h
    by_cases hz : rc = 0
    · rw [h0 hz]
      exact setLastSync_datasets w.db dn sn env.now
    · rw [h1 hz]

theorem sync_primary_prelude_datasets (env : Env) (dn p : String) (arg : StoreLinksArg) (w : W) :
    (sync_primary_prelude env dn p arg w).2.db.datasets = w.db.datasets := by
  unfold sync_primary_prelude
  cases arg with
  | str s => rfl
  | pynone => rfl
  | dict entries =>
    cases hfind : entries.find? (fun e => e.1 == p) with
    | some e =>
      simp only [hfind]
      cases he2 : e.2 with
      | none => simp only [he2]
      | some l =>
        simp only [he2]
        cases hrow : w.db.findToSync dn p with
        | none => simp only [hrow]
        | some r =>
          simp only [hrow]
          have hds := tosync_sync_datasets env dn p (some l) w
          rcases hts : ToSync.sync env dn p (some l) w with ⟨res, w2⟩
          rw [hts] at hds
          cases res <;> exact hds
    | none =>
      simp only [hfind]
      cases hps : w.db.findStore p with
      | none => simp only [hps]
      | some ps =>
        simp only [hps]
        have hgd := (get_connection_db env ps w).1
        rcases hgc : DataStore.get_connection env ps w with ⟨cres, wg⟩
        rw [hgc] at hgd
        cases cres with
        | error e => exact congrArg DB.datasets hgd
        | ok link? =>
          cases link? with
          | none => exact congrArg DB.datasets hgd
          | some l =>
            cases hrow : wg.db.findToSync dn p with
            | none =>
              simp only [hrow]
              exact congrArg DB.datasets hgd
            | some r =>
              simp only [hrow]
              have hds := tosync_sync_datasets env dn p (some l) wg
              rcases hts : ToSync.sync env dn p (some l) wg with ⟨res, w2⟩
              rw [hts] at hds
              cases res <;>
                · rw [hds]
                  exact congrArg DB.datasets hgd

theorem sync_links_loop_datasets (env : Env) (dn : String) (pn : Option String) :
    ∀ (entries : List (String × Option String)) (codes : List Int) (w : W),
      (sync_links_loop env dn pn entries codes w).2.db.datasets = w.db.datasets := by
  intro entries
  induction entries with
  | nil => intro codes w; rfl
  | cons e rest ih =>
    intro codes w
    obtain ⟨sn, link⟩ := e
    unfold sync_links_loop
    by_cases hg : (pn == some sn || link == none) = true
    · simp only [hg, if_true]
      exact ih codes w
    · simp only [hg, Bool.false_eq_true, if_false]
      cases hrow : w.db.findToSync dn sn with
      | some r =>
        simp only [hrow]
        have hds := tosync_sync_datasets env dn sn link w
        rcases hts : ToSync.sync env dn sn link w with ⟨res, w2⟩
        rw [hts] at hds
        cases res with
        | error e' => exact hds
        | ok rc =>
          rw [ih (codes ++ [rc]) w2]
          exact hds
      | none =>
        simp only [hrow]
        cases hst : w.db.findStore sn with
        | none => simp only [hst]
        | some st =>
          simp only [hst]
          by_cases harc : st.is_archive = true
          · simp only [harc, if_true]
            have hds := tosync_sync_datasets env dn sn link
              { w with db := { w.db with tosync := w.db.tosync ++ [⟨dn, sn, none⟩] } }
            rcases hts : ToSync.sync env dn sn link
                { w with db := { w.db with tosync := w.db.tosync ++ [⟨dn, sn, none⟩] } }
              with ⟨res, w2⟩
            rw [hts] at hds
            cases res with
            | error e' => exact hds
            | ok rc =>
              rw [ih (codes ++ [rc]) w2]
              exact hds
          · simp only [harc, Bool.false_eq_true, if_false]
            exact ih codes w

theorem dataset_sync_datasets (env : Env) (n : String) (arg : StoreLinksArg) (w : W) :
    (Dataset.sync env n arg w).2.db.datasets = w.db.datasets := by
  rcases hres : Dataset.sync env n arg w with ⟨res, w2⟩
  show w2.db.datasets = w.db.datasets
  unfold Dataset.sync at hres
  cases hd : w.db.findDataset n with
  | none =>
    simp only [hd] at hres
    have h2 : w = w2 := congrArg Prod.snd hres
    rw [← h2]
  | some d =>
    cases hpn : d.primary_name with
    | none =>
      cases arg with
      | str s =>
        simp only [hd, hpn] at hres
        have h2 : w = w2 := congrArg Prod.snd hres
        rw [← h2]
      | pynone =>
        simp only [hd, hpn] at hres
        have h2 : w = w2 := congrArg Prod.snd hres
        rw [← h2]
      | dict entries =>
        simp only [hd, hpn] at hres
        rcases hloop : sync_links_loop env n none entries [] w with ⟨res2, w3⟩
        rw [hloop] at hres
        have h2 : w3 = w2 := by
          cases res2 <;> exact congrArg Prod.snd hres
        have hl : w3.db.datasets = w.db.datasets := by
          have hx := sync_links_loop_datasets env n none entries [] w
          rw [hloop] at hx
          exact hx
        rw [← h2]
        exact hl
    | some p =>
      rcases hpre : sync_primary_prelude env n p arg w with ⟨pres, w1⟩
      have hp1 : w1.db.datasets = w.db.datasets := by
        have hx := sync_primary_prelude_datasets env n p arg w
        rw [hpre] at hx
        exact hx
      cases pres with
      | error e =>
        simp only [hd, hpn, hpre] at hres
        have h2 : w1 = w2 := congrArg Prod.snd hres
        rw [← h2]
        exact hp1
      | ok u =>
        cases u
        cases arg with
        | str s =>
          simp only [hd, hpn, hpre] at hres
          have h2 : w1 = w2 := congrArg Prod.snd hres
          rw [← h2]
          exact hp1
        | pynone =>
          simp only [hd, hpn, hpre] at hres
          have h2 : w1 = w2 := congrArg Prod.snd hres
          rw [← h2]
          exact hp1
        | dict entries =>
          simp only [hd, hpn, hpre] at hres
          rcases hloop : sync_links_loop env n (some p) entries [] w1 with ⟨res2, w3⟩
          rw [hloop] at hres
          have h2 : w3 = w2 := by
            cases res2 <;> exact congrArg Prod.snd hres
          have hl : w3.db.datasets = w1.db.datasets := by
            have hx := sync_links_loop_datasets env n (some p) entries [] w1
            rw [hloop] at hx
            exact hx
          rw [← h2]
          exact hl.trans hp1

theorem sync_loop_datasets (env : Env) (storeArg : Option String) (single : Bool) :
    ∀ (names : List String) (w : W),
      (Run.sync_loop env storeArg single names w).2.db.datasets = w.db.datasets := by
  intro names
  induction names with
  | nil => intro w; rfl
  | cons n rest ih =>
    intro w
    rcases hres : Run.sync_loop env storeArg single (n :: rest) w with ⟨res, w2⟩
    show w2.db.datasets = w.db.datasets
    unfold Run.sync_loop at hres
    have hds := dataset_sync_datasets env n (Run.store_arg storeArg)
      { w with attempts := w.attempts ++ [n] }
    rcases hts : Dataset.sync env n (Run.store_arg storeArg)
        { w with attempts := w.attempts ++ [n] } with ⟨dres, w3⟩
    rw [hts] at hds
    have hds3 : w3.db.datasets = w.db.datasets := hds
    cases dres with
    | ok rc =>
      simp only [hts] at hres
      by_cases hz : (rc == 0) = true
      · rw [if_pos hz] at hres
        have hx := ih w3
        rw [hres] at hx
        exact (show w2.db.datasets = w3.db.datasets from hx).trans hds3
      · rw [if_neg hz] at hres
        by_cases hs : single = true
        · rw [if_pos hs] at hres
          have h2 : w3 = w2 := congrArg Prod.snd hres
          rw [← h2]
          exact hds3
        · rw [if_neg hs] at hres
          have hx := ih w3
          rw [hres] at hx
          exact (show w2.db.datasets = w3.db.datasets from hx).trans hds3
    | error e =>
      cases e with
      | valueError m =>
        simp only [hts] at hres
        by_cases hs : single = true
        · rw [if_pos hs] at hres
          have h2 : w3 = w2 := congrArg Prod.snd hres
          rw [← h2]
          exact hds3
        · rw [if_neg hs] at hres
          have hx := ih w3
          rw [hres] at hx
          exact (show w2.db.datasets = w3.db.datasets from hx).trans hds3
      | typeError m =>
        simp only [hts] at hres
        have h2 : w3 = w2 := congrArg Prod.snd hres
        rw [← h2]
        exact hds3
      | attributeError m =>
        simp only [hts] at hres
        have h2 : w3 = w2 := congrArg Prod.snd hres
        rw [← h2]
        exact hds3
      | unboundLocalError m =>
        simp only [hts] at hres
        have h2 : w3 = w2 := congrArg Prod.snd hres
        rw [← h2]
        exact hds3

theorem run_sync_datasets (env : Env) (dArg sArg : Option String) (w : W) :
    (Run.sync env dArg sArg w).2.db.datasets = w.db.datasets := by
  unfold Run.sync
  cases hg : Run.get_dataset env w.db dArg with
  | some d =>
    simp only [hg]
    exact sync_loop_datasets env sArg true [d.name] w
  | none =>
    simp only [hg]
    cases dArg with
    | some nn => rfl
    | none => exact sync_loop_datasets env sArg _ _ w

/-- `Dataset.sync` called with a string or None `store_links` — as run.py's
`sync` command does — always raises a TypeError or AttributeError, leaving the
world untouched. -/
theorem dataset_sync_nondict (env : Env) (n : String) (arg : StoreLinksArg) (w : W)
    (harg : (∃ s, arg = .str s) ∨ arg = .pynone) :
    ∃ msg, (Dataset.sync env n arg w = (.error (.typeError msg), w) ∨
      Dataset.sync env n arg w = (.error (.attributeError msg), w)) := by
  unfold Dataset.sync
  cases hd : w.db.findDataset n with
  | none =>
    simp only [hd]
    exact ⟨_, Or.inr rfl⟩
  | some d =>
    simp only [hd]
    cases hpn : d.primary_name with
    | none =>
      simp only [hpn]
      rcases harg with ⟨s, rfl⟩ | rfl
      · exact ⟨_, Or.inr rfl⟩
      · exact ⟨_, Or.inr rfl⟩
    | some p =>
      simp only [hpn]
      unfold sync_primary_prelude
      rcases harg with ⟨s, rfl⟩ | rfl
      · exact ⟨_, Or.inl rfl⟩
      · exact ⟨_, Or.inl rfl⟩

/-- run.py's `sync` command on an explicitly named, existing dataset always
raises in this snapshot (the store argument reaches `Dataset.sync` as a
string or None), with the database unchanged. -/
theorem run_sync_named_err (env : Env) (n : String) (storeArg : Option String) (w : W)
    (d : Dataset) (hd : w.db.findDataset n = some d) :
    ∃ e w2, Run.sync env (some n) storeArg w = (.error e, w2) ∧ w2.db = w.db := by
  unfold Run.sync Run.get_dataset
  simp only [hd]
  unfold Run.sync_loop
  have harg : (∃ s, Run.store_arg storeArg = .str s) ∨ Run.store_arg storeArg = .pynone := by
    cases storeArg with
    | none => exact Or.inr rfl
    | some s => exact Or.inl ⟨s, rfl⟩
  obtain ⟨msg, hcase⟩ := dataset_sync_nondict env d.name (Run.store_arg storeArg)
    { w with attempts := w.attempts ++ [d.name] } harg
  rcases hcase with hcase | hcase
  · simp only [hcase]
    exact ⟨_, _, rfl, rfl⟩
  · simp only [hcase]
    exact ⟨_, _, rfl, rfl⟩

end RunLemmas

section ArchiveLemmas

theorem findDataset_name (db : DB) (n : String) (d : Dataset)
    (h : db.findDataset n = some d) : d.name = n := by
  unfold DB.findDataset at h
  have := List.find?_some h
  simpa using this

theorem findDataset_update (db : DB) (n m : String) (f : Dataset → Dataset)
    (hf : ∀ d, (f d).name = d.name) :
    ({ db with datasets := db.datasets.map fun d => if d.name == n then f d else d } : DB).findDataset m =
      (db.findDataset m).map (fun d => if d.name == n then f d else d) := by
  show (List.map _ db.datasets).find? _ = _
  rw [List.find?_map]
  have hp : (fun d : Dataset => d.name == m) ∘ (fun d => if d.name == n then f d else d) =
      fun d : Dataset => d.name == m := by
    funext d
    by_cases h : (d.name == n) = true
    · simp only [Function.comp_apply, if_pos h, hf]
    · simp only [Function.comp_apply, if_neg h]
  rw [hp]
  rfl

/-- When the staleness loop passes, every archive-store row of the dataset has
a non-null `last_sync` at or after the recomputed latest edit. -/
theorem archive_check_ok (db : DB) (dsname : String) (latest : Nat) :
    ∀ rows, Run.archive_check db dsname latest rows = .ok () →
      ∀ r ∈ rows, ∀ st, db.findStore r.store_name = some st → st.is_archive = true →
        ∃ t, r.last_sync = some t ∧ latest ≤ t := by
  intro rows
  induction rows with
  | nil =>
    intro _ r hr
    exact absurd hr (List.not_mem_nil r)
  | cons a rest ih =>
    intro h r hr st hst harc
    unfold Run.archive_check at h
    cases hsta : db.findStore a.store_name with
    | none =>
      simp only [hsta] at h
      exact absurd h (by simp)
    | some sta =>
      simp only [hsta] at h
      by_cases hcond : (sta.is_archive &&
          (match a.last_sync with | none => true | some t => decide (t < latest))) = true
      · rw [if_pos hcond] at h
        exact absurd h (by simp)
      · rw [if_neg hcond] at h
        rcases List.mem_cons.mp hr with rfl | hr2
        · rw [hsta] at hst
          injection hst with hst
          subst hst
          rw [harc, Bool.true_and] at hcond
          cases hls : r.last_sync with
          | none =>
            exfalso
            apply hcond
            rw [hls]
          | some t =>
            refine ⟨t, rfl, ?_⟩
            rw [hls] at hcond
            simpa using Nat.not_lt.mp (by simpa using hcond)
        · exact ih h r hr2 st hst harc

/-- When some archive-store row of the dataset is stale (null `last_sync` or
behind the latest edit), the staleness loop raises. -/
theorem archive_check_stale_err (db : DB) (dsname : String) (latest : Nat) :
    ∀ rows, (∀ r ∈ rows, (db.findStore r.store_name).isSome = true) →
      (∃ r ∈ rows, ∃ st, db.findStore r.store_name = some st ∧ st.is_archive = true ∧
        (r.last_sync = none ∨ ∃ t, r.last_sync = some t ∧ t < latest)) →
      ∃ e, Run.archive_check db dsname latest rows = .error e := by
  intro rows
  induction rows with
  | nil =>
    intro _ hex
    obtain ⟨r, hr, _⟩ := hex
    exact absurd hr (List.not_mem_nil r)
  | cons a rest ih =>
    intro hstores hex
    unfold Run.archive_check
    obtain ⟨sta, hsta⟩ := Option.isSome_iff_exists.mp (hstores a (List.mem_cons_self a rest))
    simp only [hsta]
    by_cases hcond : (sta.is_archive &&
        (match a.last_sync with | none => true | some t => decide (t < latest))) = true
    · rw [if_pos hcond]
      exact ⟨_, rfl⟩
    · rw [if_neg hcond]
      apply ih (fun r hr => hstores r (List.mem_cons_of_mem a hr))
      rcases hex with ⟨r, hr, st, hst, harc, hstale⟩
      rcases List.mem_cons.mp hr with rfl | hr2
      · exfalso
        apply hcond
        rw [hsta] at hst
        injection hst with hst
        subst hst
        rw [harc, Bool.true_and]
        rcases hstale with hnone | ⟨t, hts, hlt⟩
        · rw [hnone]
        · rw [hts]
          simpa using hlt
      · exact ⟨r, hr2, st, hst, harc, hstale⟩

/-- When every archive-store row is fresh and all stores resolve, the
staleness loop passes. -/
theorem archive_check_ok_of_fresh (db : DB) (dsname : String) (latest : Nat) :
    ∀ rows, (∀ r ∈ rows, (db.findStore r.store_name).isSome = true) →
      (∀ r ∈ rows, ∀ st, db.findStore r.store_name = some st → st.is_archive = true →
        ∃ t, r.last_sync = some t ∧ latest ≤ t) →
      Run.archive_check db dsname latest rows = .ok () := by
  intro rows
  induction rows with
  | nil =>
    intro _ _
    rfl
  | cons a rest ih =>
    intro hstores hfresh
    unfold Run.archive_check
    obtain ⟨sta, hsta⟩ := Option.isSome_iff_exists.mp (hstores a (List.mem_cons_self a rest))
    simp only [hsta]
    have hcond : (sta.is_archive &&
        (match a.last_sync with | none => true | some t => decide (t < latest))) = false := by
      cases harc : sta.is_archive with
      | false => rw [Bool.false_and]
      | true =>
        rw [Bool.true_and]
        obtain ⟨t, hts, hle⟩ := hfresh a (List.mem_cons_self a rest) sta hsta harc
        rw [hts]
        simpa using Nat.not_lt.mpr hle
    rw [if_neg (by simp [hcond])]
    exact ih (fun r hr => hstores r (List.mem_cons_of_mem a hr))
      (fun r hr => hfresh r (List.mem_cons_of_mem a hr))

/-- `archive` on a primary-less, non-archived dataset reduces to: recompute
`latest_edit`, run the staleness check, then mark archived. -/
theorem run_archive_eq_primary_none (env : Env) (w : W) (n : String) (d : Dataset)
    (hd : w.db.findDataset n = some d) (hn : d.archived = false) (hpn : d.primary_name = none) :
    Run.archive env (some n) w =
      (match Run.archive_check (Run.update_latest_edit env w.db n) n
          (env.scan_mtime (local_path env.home n))
          ((Run.update_latest_edit env w.db n).tosync.filter (fun r => r.dataset_name == n)) with
       | .error e => (.error e, { w with db := Run.update_latest_edit env w.db n })
       | .ok _ => (.ok (),
           { w with db := (Run.update_latest_edit env w.db n).setArchived n true })) := by
  have hname := findDataset_name w.db n d hd
  unfold Run.archive Run.get_dataset
  simp only [hd, hn, Bool.false_eq_true, if_false, hpn, hname]

/-- `archive` on a dataset with a primary always raises in this snapshot: the
forced pre-sync hands the primary's name string to `Dataset.sync`. -/
theorem run_archive_primary_some_err (env : Env) (w : W) (n : String) (d : Dataset) (p : String)
    (hd : w.db.findDataset n = some d) (hn : d.archived = false) (hpn : d.primary_name = some p) :
    ∃ e w2, Run.archive env (some n) w = (.error e, w2) ∧ w2.db = w.db := by
  obtain ⟨e, w2, hsync, hdb⟩ := run_sync_named_err env n (some p) w d hd
  unfold Run.archive Run.get_dataset
  simp only [hd, hn, Bool.false_eq_true, if_false, hpn, hsync]
  exact ⟨e, w2, rfl, hdb⟩

end ArchiveLemmas

section ClaimsArchive

/-- C1: for a non-archived dataset, whenever some archive-store ToSync row has
null `last_sync` or `last_sync` behind the recomputed `latest_edit`, the
`archive` command fails and no persisted state changes; and `archive` marks
the dataset archived only when every archive-store row has a non-null
`last_sync` at or after the recomputed `latest_edit`. -/
theorem claim_C1_archive_guard (env : Env) (w : W) (n : String) (d : Dataset)
    (hd : w.db.findDataset n = some d) (hn : d.archived = false)
    (hstores : ∀ r ∈ w.db.tosync, r.dataset_name = n →
      (w.db.findStore r.store_name).isSome = true) :
    ((∃ r ∈ w.db.tosync, r.dataset_name = n ∧ ∃ st, w.db.findStore r.store_name = some st ∧
        st.is_archive = true ∧ (r.last_sync = none ∨
          ∃ t, r.last_sync = some t ∧ t < env.scan_mtime (local_path env.home n))) →
      ∃ e w', in_session (Run.archive env (some n)) w = (.error e, w') ∧ w'.db = w.db) ∧
    (∀ w', in_session (Run.archive env (some n)) w = (.ok (), w') →
      (∃ d', w'.db.findDataset n = some d' ∧ d'.archived = true) ∧
      ∀ r ∈ w.db.tosync, r.dataset_name = n →
        ∀ st, w.db.findStore r.store_name = some st → st.is_archive = true →
          ∃ t, r.last_sync = some t ∧ env.scan_mtime (local_path env.home n) ≤ t) := by
  have hrows : ∀ r, r ∈ (Run.update_latest_edit env w.db n).tosync.filter
      (fun r => r.dataset_name == n) ↔ (r ∈ w.db.tosync ∧ r.dataset_name = n) := by
    intro r
    rw [List.mem_filter]
    show r ∈ w.db.tosync ∧ (r.dataset_name == n) = true ↔ _
    simp
  have hfsto : ∀ sn, (Run.update_latest_edit env w.db n).findStore sn = w.db.findStore sn :=
    fun _ => rfl
  constructor
  · intro hex
    cases hpn : d.primary_name with
    | some p =>
      obtain ⟨e, w2, harch, hdb⟩ := run_archive_primary_some_err env w n d p hd hn hpn
      refine ⟨e, { w2 with db := w.db }, ?_, rfl⟩
      unfold in_session
      simp only [harch]
    | none =>
      have hstale : ∃ e, Run.archive_check (Run.update_latest_edit env w.db n) n
          (env.scan_mtime (local_path env.home n))
          ((Run.update_latest_edit env w.db n).tosync.filter (fun r => r.dataset_name == n)) =
          .error e := by
        apply archive_check_stale_err
        · intro r hr
          obtain ⟨hmem, hname⟩ := (hrows r).mp hr
          rw [hfsto]
          exact hstores r hmem hname
        · obtain ⟨r, hmem, hname, st, hst, harc, hstale'⟩ := hex
          exact ⟨r, (hrows r).mpr ⟨hmem, hname⟩, st, (hfsto r.store_name).symm ▸ hst,
            harc, hstale'⟩
      obtain ⟨e, hchk⟩ := hstale
      refine ⟨e, { w with db := w.db }, ?_, rfl⟩
      unfold in_session
      rw [run_archive_eq_primary_none env w n d hd hn hpn]
      simp only [hchk]
  · intro w' hok
    rcases harch : Run.archive env (some n) w with ⟨res, w2⟩
    unfold in_session at hok
    simp only [harch] at hok
    cases res with
    | error e => exact absurd (congrArg Prod.fst hok) (by simp)
    | ok u =>
      cases u
      have h2 : w2 = w' := congrArg Prod.snd hok
      subst h2
      cases hpn : d.primary_name with
      | some p =>
        exfalso
        obtain ⟨e, w3, harch', _⟩ := run_archive_primary_some_err env w n d p hd hn hpn
        rw [harch'] at harch
        exact absurd (congrArg Prod.fst harch) (by simp)
      | none =>
        rw [run_archive_eq_primary_none env w n d hd hn hpn] at harch
        cases hchk : Run.archive_check (Run.update_latest_edit env w.db n) n
            (env.scan_mtime (local_path env.home n))
            ((Run.update_latest_edit env w.db n).tosync.filter (fun r => r.dataset_name == n)) with
        | error e =>
          rw [hchk] at harch
          exact absurd (congrArg Prod.fst harch) (by simp)
        | ok u' =>
          cases u'
          rw [hchk] at harch
          have hw2 : ({ w with db := (Run.update_latest_edit env w.db n).setArchived n true } : W) =
              w2 := congrArg Prod.snd harch
          constructor
          · have hname := findDataset_name w.db n d hd
            have hbeq : (d.name == n) = true := by simp [hname]
            have h1 : (Run.update_latest_edit env w.db n).findDataset n =
                some { d with latest_edit := some (env.scan_mtime (local_path env.home n)) } := by
              unfold Run.update_latest_edit DB.setLatestEdit
              rw [findDataset_update w.db n n
                (fun d => { d with
                  latest_edit := some (env.scan_mtime (local_path env.home n)) })
                (fun _ => rfl), hd]
              simp [hname]
            have h2 : w2.db.findDataset n =
                some { d with
                  latest_edit := some (env.scan_mtime (local_path env.home n)),
                  archived := true } := by
              rw [← hw2]
              show ((Run.update_latest_edit env w.db n).setArchived n true).findDataset n = _
              unfold DB.setArchived
              rw [findDataset_update _ n n (fun d => { d with archived := true })
                (fun _ => rfl), h1]
              simp [hname]
            exact ⟨_, h2, rfl⟩
          · intro r hmem hname st hst harc
            have hchk' := archive_check_ok _ _ _ _ hchk r ((hrows r).mpr ⟨hmem, hname⟩) st
              ((hfsto r.store_name).symm ▸ hst) harc
            exact hchk'

theorem claim_C1_witness :
    ∃ e w', in_session (Run.archive envW (some "d1")) wC1 = (.error e, w') ∧ w'.db = wC1.db :=
  (claim_C1_archive_guard envW wC1 "d1" dsLocal (by decide) (by decide) (by decide)).1
    ⟨⟨"d1", "arc", none⟩, by decide, by decide, storeArc, by decide, by decide, Or.inl rfl⟩

/-- C6: `archive` recomputes `latest_edit` before its staleness check — the
check's outcome is a function of the fresh directory scan (for any stored
`latest_edit` value, since the pre-state is arbitrary), and on success the
dataset's stored `latest_edit` equals the scan result for its local path. -/
theorem claim_C6_latest_edit_recomputed (env : Env) (w : W) (n : String) (d : Dataset)
    (hd : w.db.findDataset n = some d) (hn : d.archived = false) (hpn : d.primary_name = none)
    (hstores : ∀ r ∈ w.db.tosync, r.dataset_name = n →
      (w.db.findStore r.store_name).isSome = true) :
    ((∃ r ∈ w.db.tosync, r.dataset_name = n ∧ ∃ st, w.db.findStore r.store_name = some st ∧
        st.is_archive = true ∧ (r.last_sync = none ∨
          ∃ t, r.last_sync = some t ∧ t < env.scan_mtime (local_path env.home n))) →
      ∃ e w', Run.archive env (some n) w = (.error e, w')) ∧
    ((∀ r ∈ w.db.tosync, r.dataset_name = n →
        ∀ st, w.db.findStore r.store_name = some st → st.is_archive = true →
          ∃ t, r.last_sync = some t ∧ env.scan_mtime (local_path env.home n) ≤ t) →
      ∃ w', Run.archive env (some n) w = (.ok (), w') ∧
        ∃ d', w'.db.findDataset n = some d' ∧
          d'.latest_edit = some (env.scan_mtime (local_path env.home n)) ∧
          d'.archived = true) := by
  have hrows : ∀ r, r ∈ (Run.update_latest_edit env w.db n).tosync.filter
      (fun r => r.dataset_name == n) ↔ (r ∈ w.db.tosync ∧ r.dataset_name = n) := by
    intro r
    rw [List.mem_filter]
    show r ∈ w.db.tosync ∧ (r.dataset_name == n) = true ↔ _
    simp
  have hfsto : ∀ sn, (Run.update_latest_edit env w.db n).findStore sn = w.db.findStore sn :=
    fun _ => rfl
  constructor
  · intro hex
    obtain ⟨e, hchk⟩ : ∃ e, Run.archive_check (Run.update_latest_edit env w.db n) n
        (env.scan_mtime (local_path env.home n))
        ((Run.update_latest_edit env w.db n).tosync.filter (fun r => r.dataset_name == n)) =
        .error e := by
      apply archive_check_stale_err
      · intro r hr
        obtain ⟨hmem, hname⟩ := (hrows r).mp hr
        rw [hfsto]
        exact hstores r hmem hname
      · obtain ⟨r, hmem, hname, st, hst, harc, hstale'⟩ := hex
        exact ⟨r, (hrows r).mpr ⟨hmem, hname⟩, st, (hfsto r.store_name).symm ▸ hst,
          harc, hstale'⟩
    refine ⟨e, { w with db := Run.update_latest_edit env w.db n }, ?_⟩
    rw [run_archive_eq_primary_none env w n d hd hn hpn]
    simp only [hchk]
  · intro hfresh
    have hchk : Run.archive_check (Run.update_latest_edit env w.db n) n
        (env.scan_mtime (local_path env.home n))
        ((Run.update_latest_edit env w.db n).tosync.filter (fun r => r.dataset_name == n)) =
        .ok () := by
      apply archive_check_ok_of_fresh
      · intro r hr
        obtain ⟨hmem, hname⟩ := (hrows r).mp hr
        rw [hfsto]
        exact hstores r hmem hname
      · intro r hr st hst harc
        obtain ⟨hmem, hname⟩ := (hrows r).mp hr
        exact hfresh r hmem hname st ((hfsto r.store_name) ▸ hst) harc
    refine ⟨{ w with db := (Run.update_latest_edit env w.db n).setArchived n true }, ?_, ?_⟩
    · rw [run_archive_eq_primary_none env w n d hd hn hpn]
      simp only [hchk]
    · have hname := findDataset_name w.db n d hd
      have hbeq : (d.name == n) = true := by simp [hname]
      have h1 : (Run.update_latest_edit env w.db n).findDataset n =
          some { d with latest_edit := some (env.scan_mtime (local_path env.home n)) } := by
        unfold Run.update_latest_edit DB.setLatestEdit
        rw [findDataset_update w.db n n
          (fun d => { d with
            latest_edit := some (env.scan_mtime (local_path env.home n)) })
          (fun _ => rfl), hd]
        simp [hname]
      refine ⟨{ d with
          latest_edit := some (env.scan_mtime (local_path env.home n)),
          archived := true }, ?_, rfl, rfl⟩
      show ((Run.update_latest_edit env w.db n).setArchived n true).findDataset n = _
      unfold DB.setArchived
      rw [findDataset_update _ n n (fun d => { d with archived := true })
        (fun _ => rfl), h1]
      simp [hname]

theorem claim_C6_witness :
    ∃ w', Run.archive envW (some "d1") wC6 = (.ok (), w') ∧
      ∃ d', w'.db.findDataset "d1" = some d' ∧
        d'.latest_edit = some (envW.scan_mtime (local_path envW.home "d1")) ∧
        d'.archived = true :=
  (claim_C6_latest_edit_recomputed envW wC6 "d1" dsLocal (by decide) (by decide) (by decide)
    (by decide)).2
    (by
      intro r hr hname st hst harc
      have hr' : r = ⟨"d1", "arc", some 10⟩ := by
        simpa [wC6] using hr
      subst hr'
      exact ⟨10, rfl, by decide⟩)

end ClaimsArchive

section ClaimsRun

/-- C3 counterexample: two datasets resolve for a bulk sync, yet the call
raises out of the first dataset's attempt (an AttributeError — `store_links`
is None — that the per-dataset `except ValueError` does not catch), so no
failure is collected and the second dataset is never attempted. -/
theorem claim_C3_counterexample :
    wC3.db.datasets.map (fun d => d.name) = ["d1", "d9"] ∧
    Run.sync envW none none wC3 =
      (.error (.attributeError "'NoneType' object has no attribute 'items'"),
       { wC3 with attempts := ["d1"] }) :=
  ⟨by decide, by decide⟩

/-- C3 (amended): in a bulk sync over several datasets, the first dataset's
sync raises a non-ValueError (the store argument reaches `Dataset.sync` as a
string or None), which aborts the batch at once — nothing is collected and
the remaining datasets are not attempted; a per-dataset ValueError would be
silently swallowed (run.py:296-298) rather than collected. When exactly one
dataset is targeted, its failure is raised to the caller. -/
theorem claim_C3_amended_aggregation :
    (∀ (env : Env) (w : W) (storeArg : Option String) (n1 n2 : String)
        (restNames : List String),
      env.cwd_dataset = none → w.attempts = [] →
      w.db.datasets.map (fun d => d.name) = n1 :: n2 :: restNames →
      ∃ e w', Run.sync env none storeArg w = (.error e, w') ∧ w'.attempts = [n1] ∧
        ∀ m, e ≠ PyErr.valueError m) ∧
    (∀ (env : Env) (w : W) (storeArg : Option String) (n : String) (d : Dataset),
      w.db.findDataset n = some d →
      ∃ e w', Run.sync env (some n) storeArg w = (.error e, w')) := by
  constructor
  · intro env w storeArg n1 n2 restNames hcwd hattempts hnames
    unfold Run.sync Run.get_dataset
    simp only [hcwd, hnames]
    have hlen : ((n1 :: n2 :: restNames).length == 1) = false := by
      simp only [List.length_cons, beq_eq_false_iff_ne]
      omega
    rw [hlen]
    unfold Run.sync_loop
    have harg : (∃ s, Run.store_arg storeArg = StoreLinksArg.str s) ∨
        Run.store_arg storeArg = StoreLinksArg.pynone := by
      cases storeArg with
      | none => exact Or.inr rfl
      | some s => exact Or.inl ⟨s, rfl⟩
    obtain ⟨msg, hcase⟩ := dataset_sync_nondict env n1 (Run.store_arg storeArg)
      { w with attempts := w.attempts ++ [n1] } harg
    rcases hcase with hcase | hcase
    · simp only [hcase]
      refine ⟨_, _, rfl, ?_, fun m hem => PyErr.noConfusion hem⟩
      show w.attempts ++ [n1] = [n1]
      rw [hattempts]
      rfl
    · simp only [hcase]
      refine ⟨_, _, rfl, ?_, fun m hem => PyErr.noConfusion hem⟩
      show w.attempts ++ [n1] = [n1]
      rw [hattempts]
      rfl
  · intro env w storeArg n d hd
    obtain ⟨e, w2, h, _⟩ := run_sync_named_err env n storeArg w d hd
    exact ⟨e, w2, h⟩

theorem claim_C3_witness :
    (envW.cwd_dataset = none ∧ wC3.attempts = [] ∧
      wC3.db.datasets.map (fun d => d.name) = ["d1", "d9"]) ∧
    (∃ e w', Run.sync envW none none wC3 = (.error e, w') ∧ w'.attempts = ["d1"] ∧
      ∀ m, e ≠ PyErr.valueError m) :=
  ⟨⟨rfl, rfl, by decide⟩,
   claim_C3_amended_aggregation.1 envW wC3 none "d1" "d9" [] rfl rfl (by decide)⟩

/-- C4: `set_primary` never leaves `dataset.primary` updated when any step —
the forced pre-sync included — raises: on an exception the datasets table is
exactly the one from before the call. On a normal return, either nothing
changed (the no-op path), the pre-sync was explicitly skipped, or the
pre-sync itself returned normally; only then was the primary reference
assigned. -/
theorem claim_C4_set_primary_guard (env : Env) (dArg pArg : Option String)
    (skip : Bool) (w : W) :
    (∀ e w', Run.set_primary env dArg pArg skip w = (.error e, w') →
      w'.db.datasets = w.db.datasets) ∧
    (∀ w', Run.set_primary env dArg pArg skip w = (.ok (), w') →
      w'.db.datasets = w.db.datasets ∨ skip = true ∨
      ∃ n st w2, Run.sync env (some n) st w = (.ok (), w2)) := by
  have main : ∀ res w', Run.set_primary env dArg pArg skip w = (res, w') →
      (res = .ok () → w'.db.datasets = w.db.datasets ∨ skip = true ∨
        ∃ n st w2, Run.sync env (some n) st w = (.ok (), w2)) ∧
      ((∃ e, res = .error e) → w'.db.datasets = w.db.datasets) := by
    intro res w' hres
    unfold Run.set_primary at hres
    cases hg : Run.get_dataset env w.db dArg with
    | none =>
      simp only [hg] at hres
      have h2 : w = w' := congrArg Prod.snd hres
      exact ⟨fun _ => Or.inl (by rw [← h2]), fun _ => by rw [← h2]⟩
    | some d =>
      simp only [hg] at hres
      by_cases ha : d.archived = true
      · rw [if_pos ha] at hres
        have h2 : w = w' := congrArg Prod.snd hres
        exact ⟨fun _ => Or.inl (by rw [← h2]), fun _ => by rw [← h2]⟩
      · rw [if_neg ha] at hres
        cases pArg with
        | none =>
          simp only at hres
          by_cases heq : (d.primary_name == (none : Option DataStore).map (fun p => p.name)) = true
          · rw [if_pos heq] at hres
            have h2 : w = w' := congrArg Prod.snd hres
            exact ⟨fun _ => Or.inl (by rw [← h2]), fun _ => by rw [← h2]⟩
          · rw [if_neg heq] at hres
            cases skip with
            | true =>
              simp only [if_pos rfl] at hres
              exact ⟨fun _ => Or.inr (Or.inl rfl), fun he => by
                obtain ⟨e, he⟩ := he
                rw [he] at hres
                exact absurd (congrArg Prod.fst hres) (by simp)⟩
            | false =>
              simp only [Bool.false_eq_true, if_false] at hres
              rcases hs : Run.sync env (some d.name) d.primary_name w with ⟨sres, w2⟩
              rw [hs] at hres
              cases sres with
              | error e =>
                have h2 : w2 = w' := congrArg Prod.snd hres
                have hfst : (Except.error e : Except PyErr Unit) = res :=
                  congrArg Prod.fst hres
                have hds := run_sync_datasets env (some d.name) d.primary_name w
                rw [hs] at hds
                refine ⟨fun hok => ?_, fun _ => ?_⟩
                · rw [← hfst] at hok
                  exact absurd hok (by simp)
                · rw [← h2]
                  exact hds
              | ok u =>
                cases u
                exact ⟨fun _ => Or.inr (Or.inr ⟨d.name, d.primary_name, w2, hs⟩),
                  fun he => by
                    obtain ⟨e, he⟩ := he
                    rw [he] at hres
                    exact absurd (congrArg Prod.fst hres) (by simp)⟩
        | some pn =>
          cases hfs : w.db.findStore pn with
          | none =>
            simp only [hfs] at hres
            have h2 : w = w' := congrArg Prod.snd hres
            refine ⟨fun hok => ?_, fun _ => by rw [← h2]⟩
            subst hok
            exact absurd (congrArg Prod.fst hres) (by simp)
          | some p =>
            simp only [hfs] at hres
            by_cases harc : p.is_archive = true
            · rw [if_pos harc] at hres
              have h2 : w = w' := congrArg Prod.snd hres
              refine ⟨fun hok => ?_, fun _ => by rw [← h2]⟩
              subst hok
              exact absurd (congrArg Prod.fst hres) (by simp)
            · rw [if_neg harc] at hres
              simp only at hres
              by_cases heq : (d.primary_name ==
                  (some p : Option DataStore).map (fun p => p.name)) = true
              · rw [if_pos heq] at hres
                have h2 : w = w' := congrArg Prod.snd hres
                exact ⟨fun _ => Or.inl (by rw [← h2]), fun _ => by rw [← h2]⟩
              · rw [if_neg heq] at hres
                cases skip with
                | true =>
                  simp only [if_pos rfl] at hres
                  exact ⟨fun _ => Or.inr (Or.inl rfl), fun he => by
                    obtain ⟨e, he⟩ := he
                    rw [he] at hres
                    exact absurd (congrArg Prod.fst hres) (by simp)⟩
                | false =>
                  simp only [Bool.false_eq_true, if_false] at hres
                  rcases hs : Run.sync env (some d.name) (some p.name) w with ⟨sres, w2⟩
                  rw [hs] at hres
                  cases sres with
                  | error e =>
                    have h2 : w2 = w' := congrArg Prod.snd hres
                    have hfst : (Except.error e : Except PyErr Unit) = res :=
                      congrArg Prod.fst hres
                    have hds := run_sync_datasets env (some d.name) (some p.name) w
                    rw [hs] at hds
                    refine ⟨fun hok => ?_, fun _ => ?_⟩
                    · rw [← hfst] at hok
                      exact absurd hok (by simp)
                    · rw [← h2]
                      exact hds
                  | ok u =>
                    cases u
                    exact ⟨fun _ => Or.inr (Or.inr ⟨d.name, some p.name, w2, hs⟩),
                      fun he => by
                        obtain ⟨e, he⟩ := he
                        rw [he] at hres
                        exact absurd (congrArg Prod.fst hres) (by simp)⟩
  constructor
  · intro e w' hres
    exact ((main (.error e) w' hres).2 ⟨e, rfl⟩)
  · intro w' hres
    exact ((main (.ok ()) w' hres).1 rfl)

theorem claim_C4_witness :
    Run.set_primary envW (some "d2") (some "s2") false wC4 = (.error eC4, wC4err) ∧
    wC4err.db.datasets = wC4.db.datasets :=
  ⟨by decide,
   (claim_C4_set_primary_guard envW (some "d2") (some "s2") false wC4).1 eC4 wC4err (by decide)⟩

/-- C5 (code bug): with an archived dataset and an archive store whose
connection is available, `unarchive` crashes with AttributeError — run.py:350
calls `.sync(...)` on the string `get_connection` returned — so the success
path (clear `archived`, reset `primary`) is unreachable; the dataset stays
archived. -/
theorem claim_C5_unarchive_crash :
    (∃ l, DataStore.get_connection envW storeArc wC5 = (.ok (some l), wC5)) ∧
    in_session (Run.unarchive envW (some "da")) wC5 =
      (.error (.attributeError "'str' object has no attribute 'sync'"), wC5) ∧
    (wC5.db.findDataset "da").map (fun d => d.archived) = some true :=
  ⟨⟨"/Volumes/vol/data-archive/", by decide⟩, by decide, by decide⟩

end ClaimsRun

end Dsync
